import Mathlib

/-!
# brain-claw firmware: decoder, relay queue and link-state machine

A shallow embedding of `packages/firmware/include/muse_parse.h`,
`packages/firmware/include/config.h` and `packages/firmware/src/main.cpp`.

Conventions of the embedding.

* A `uint8_t*` payload is a `List Nat` of bytes; a read `data[i]` at or past the end of the
  payload is the fault `Except.error i` (a C out-of-bounds read).
* A `const char*` is the list of its characters; the terminating NUL is implicit, so reading
  at or past the end of the list yields `0`.
* `int` is unbounded (`Nat` / `Int`); `uint16_t` and `uint8_t` conversions are written as
  explicit `% 65536` and `% 256`.
* `float` values are rationals.  In `decodeEegSamples` every intermediate value is of the form
  `m / 256` with `|m| < 2 ^ 24`, hence exactly representable in binary32, so the rational
  computation is the float computation (see `scaleRaw_exact`).  The quotient `temp / 10.0f`
  of the telemetry handler is kept as the exact rational quotient handed to `snprintf`.
* Calls into the radio stack, the transport and FreeRTOS are recorded in `State.trace`; their
  answers are parameters (`Gatt`, `ConnectOutcome`, `LoopEnv`).
* `onConnect` and `onDisconnect` run on the task of the radio stack.  The functions of
  `main.cpp` are first given as sequential code; the variants named `...Race` let these
  callbacks land between the statements of `startMuseStream`, and reachability is defined
  over those.
-/

namespace BrainClaw

/-! ## config.h -/

/-- The macro `EEG_SAMPLES_PER_PACKET`. -/
def EEG_SAMPLES_PER_PACKET : Nat := 12

/-- The macro `EEG_SCALE`, the float literal `0.48828125f` (exactly `125 / 256`). -/
def EEG_SCALE : ℚ := 0.48828125

/-- The macro `EEG_OFFSET`, an `int` literal converted to float where it is used. -/
def EEG_OFFSET : Int := 2048

/-! ## muse_parse.h -/

/-- The read `data[i]` of a payload of known extent. -/
def readByte (data : List Nat) (i : Nat) : Except Nat Nat :=
  match data[i]? with
  | some b => .ok b
  | none => .error i

/-- One iteration of the loop of `decodeEegSamples` up to and including `raw &= 0x0FFF`:
both branches of the source, the assignment to `uint16_t raw` being `% 65536`. -/
def decodeRaw (data : List Nat) (i : Nat) : Except Nat Nat :=
  let bitOffset := i * 12
  let byteIdx := bitOffset / 8
  let bitShift := bitOffset % 8
  if bitShift ≤ 4 then do
    let b0 ← readByte data byteIdx
    let b1 ← readByte data (byteIdx + 1)
    pure ((((b0 <<< 8 ||| b1) >>> (4 - bitShift)) % 65536) &&& 0x0FFF)
  else do
    let b0 ← readByte data byteIdx
    let b1 ← readByte data (byteIdx + 1)
    let b2 ← readByte data (byteIdx + 2)
    pure ((((b0 <<< 16 ||| b1 <<< 8 ||| b2) >>> (12 - bitShift)) % 65536) &&& 0x0FFF)

/-- The statement `out[i] = ((float)raw - EEG_OFFSET) * EEG_SCALE`. -/
def scaleRaw (raw : Nat) : ℚ := (((raw : Int) : ℚ) - (EEG_OFFSET : ℚ)) * EEG_SCALE

/-- The `for` loop of `decodeEegSamples`: `n` iterations remain, `i` is the loop variable and
`out` the samples written so far. -/
def decodeLoop (data : List Nat) : Nat → Nat → List ℚ → Except Nat (List ℚ)
  | 0, _, out => .ok out
  | n + 1, i, out => do
    let raw ← decodeRaw data i
    decodeLoop data n (i + 1) (out ++ [scaleRaw raw])

/-- The function `decodeEegSamples(data, out)`; the result is the contents of `out`. -/
def decodeEegSamples (data : List Nat) : Except Nat (List ℚ) :=
  decodeLoop data EEG_SAMPLES_PER_PACKET 0 []

/-- The loop `while (cmd[len]) len++`. -/
def strlen : List Nat → Nat
  | [] => 0
  | c :: cs => if c = 0 then 0 else strlen cs + 1

/-- The function `encodeMuseCommand(cmd, buf, bufSize)`: the returned `int` and the buffer
after the call. -/
def encodeMuseCommand (cmd : List Nat) (buf : List Nat) (bufSize : Int) : Int × List Nat :=
  let len := strlen cmd
  let totalLen := len + 1
  if ((totalLen + 1 : Nat) : Int) > bufSize then (0, buf)
  else
    let buf := buf.set 0 (totalLen % 256)
    let buf := (List.range len).foldl (fun b i => b.set (i + 1) (cmd.getD i 0 % 256)) buf
    let buf := buf.set (len + 1) 0x0A
    (((totalLen + 1 : Nat) : Int), buf)

/-! ## main.cpp: state -/

/-- The struct `WsMsg`: the array `char json[320]`. -/
structure WsMsg where
  json : List Nat
deriving DecidableEq, Repr

/-- A FreeRTOS queue as made by `xQueueCreate(capacity, sizeof(WsMsg))`, oldest item first. -/
structure Queue where
  capacity : Nat
  items : List WsMsg
deriving DecidableEq, Repr

/-- The constant `WS_QUEUE_SIZE`. -/
def WS_QUEUE_SIZE : Nat := 64

/-- The data characteristics `startMuseStream` subscribes to: `eegUUIDs[i]`,
`MUSE_ACCEL_UUID`, `MUSE_GYRO_UUID`, `MUSE_TELEMETRY_UUID`. -/
inductive Chr
  | eeg (i : Nat)
  | accel
  | gyro
  | telemetry
deriving DecidableEq, Repr

/-- The three ways `subscribeChar` can end. -/
inductive SubOutcome
  | notFound
  | subscribeFailed
  | subscribed
deriving DecidableEq, Repr

/-- The calls into the radio stack and the transport that the firmware makes.  A client
object is named by its creation rank (`0` is `nullptr`). -/
inductive Call
  | scan
  | getService (client : Nat)
  | subscribe (client : Nat) (c : Chr) (r : SubOutcome)
  | writeValue (client : Nat) (bytes : List Nat) (ok : Bool)
  | sendTXT (json : List Nat)
deriving DecidableEq, Repr

/-- The file-scope variables of `main.cpp`, with the trace of external calls made so far. -/
structure State where
  wsConnected : Bool
  bleConnected : Bool
  museStreaming : Bool
  bleClient : Nat
  wsQueue : Option Queue
  trace : List Call
deriving DecidableEq, Repr

/-- The values of the file-scope variables at boot. -/
def boot : State :=
  { wsConnected := false, bleConnected := false, museStreaming := false,
    bleClient := 0, wsQueue := none, trace := [] }

/-- Record one external call. -/
def State.call (s : State) (c : Call) : State := { s with trace := s.trace ++ [c] }

/-- What the peripheral answers during one run of `startMuseStream`. -/
structure Gatt where
  service : Bool
  control : Bool
  sub : Chr → SubOutcome
  writeOk : List Nat → Bool

/-- A C string literal as its list of character codes. -/
def lit (s : String) : List Nat := s.data.map Char.toNat

/-! ## main.cpp: relay queue -/

/-- The characters of the C string stored in a char array: those before the first NUL. -/
def cstring : List Nat → List Nat
  | [] => []
  | c :: cs => if c = 0 then [] else c :: cstring cs

/-- The call `strncpy(dst, src, n)`: at most `n` characters of `src`, padded with NULs to
exactly `n` bytes. -/
def strncpy (src : List Nat) (n : Nat) : List Nat :=
  (cstring src).take n ++ List.replicate (n - ((cstring src).take n).length) 0

/-- The `WsMsg` that `sendJSON` builds: `strncpy` of 319 bytes, then `json[319] = 0`. -/
def mkWsMsg (json : List Nat) : WsMsg := { json := strncpy json 319 ++ [0] }

/-- The call `xQueueSend(q, &msg, 0)`: with no ticks to wait a full queue refuses the item. -/
def xQueueSend (q : Queue) (m : WsMsg) : Queue :=
  if q.items.length < q.capacity then { q with items := q.items ++ [m] } else q

/-- The function `sendJSON(json)`. -/
def sendJSON (json : List Nat) (s : State) : State :=
  if !s.wsConnected then s
  else
    match s.wsQueue with
    | none => s
    | some q => { s with wsQueue := some (xQueueSend q (mkWsMsg json)) }

/-! ## main.cpp: notification callbacks -/

/-- The conversion `(int16_t)x` of a 16-bit pattern. -/
def toInt16 (x : Nat) : Int := ((x + 32768) % 65536 : Nat) - 32768

/-- The callback `onTelemetryNotify(pChar, data, len, isNotify)` with `len = data.length`;
`fmt battery t` is the text `snprintf` leaves in `buf` for the format
`{"type":"telemetry","battery":%u,"temp":%.1f}`, where `t` is `temp / 10.0f`. -/
def onTelemetryNotify (fmt : Nat → ℚ → List Nat) (data : List Nat) (s : State) :
    Except Nat State :=
  if data.length < 8 || !s.wsConnected then .ok s
  else do
    let d2 ← readByte data 2
    let d3 ← readByte data 3
    let battery := (d2 <<< 8 ||| d3) % 65536
    let d8 ← readByte data 8
    let d9 ← readByte data 9
    let temp := toInt16 ((d8 <<< 8 ||| d9) % 65536)
    pure (sendJSON (fmt battery ((temp : ℚ) / 10)) s)

/-- The lookup of the channel index in `onEegNotify`: the position of the UUID of the
notifying characteristic in `eegUUIDs`, or `-1`. -/
def eegChannel (c : Chr) : Int :=
  match c with
  | .eeg i => if i < 4 then (i : Int) else -1
  | _ => -1

/-- The callback `onEegNotify(pChar, data, len, isNotify)` with `len = data.length` and
`c` the characteristic of `pChar`; `fmt ch seq samples` is the text the `snprintf` calls
leave in `buf`.  The decoder works on `data + 2`, so its read faults are shifted by 2. -/
def onEegNotify (fmt : Int → Nat → List ℚ → List Nat) (c : Chr) (data : List Nat)
    (s : State) : Except Nat State :=
  if data.length < 20 || !s.wsConnected then .ok s
  else if eegChannel c < 0 then .ok s
  else do
    let d0 ← readByte data 0
    let d1 ← readByte data 1
    let seq := (d0 <<< 8 ||| d1) % 65536
    let samples ← (decodeEegSamples (data.drop 2)).mapError (fun i => i + 2)
    pure (sendJSON (fmt (eegChannel c) seq samples) s)

/-- The callback `onAccelNotify(pChar, data, len, isNotify)` with `len = data.length`;
`fmt x y z` is the text `snprintf` leaves in `buf`; `scale` is `1.0f / 16384.0f`. -/
def onAccelNotify (fmt : ℚ → ℚ → ℚ → List Nat) (data : List Nat) (s : State) :
    Except Nat State :=
  if data.length < 8 || !s.wsConnected then .ok s
  else do
    let d0 ← readByte data 0
    let d1 ← readByte data 1
    let _seq := (d0 <<< 8 ||| d1) % 65536
    let d2 ← readByte data 2
    let d3 ← readByte data 3
    let ax := toInt16 ((d2 <<< 8 ||| d3) % 65536)
    let d4 ← readByte data 4
    let d5 ← readByte data 5
    let ay := toInt16 ((d4 <<< 8 ||| d5) % 65536)
    let d6 ← readByte data 6
    let d7 ← readByte data 7
    let az := toInt16 ((d6 <<< 8 ||| d7) % 65536)
    let scale : ℚ := 1 / 16384
    pure (sendJSON (fmt ((ax : ℚ) * scale) ((ay : ℚ) * scale) ((az : ℚ) * scale)) s)

/-- The callback `onGyroNotify(pChar, data, len, isNotify)` with `len = data.length`;
`fmt x y z` is the text `snprintf` leaves in `buf`; `scale` is `1.0f / 16.4f`, kept as the
exact quotient. -/
def onGyroNotify (fmt : ℚ → ℚ → ℚ → List Nat) (data : List Nat) (s : State) :
    Except Nat State :=
  if data.length < 8 || !s.wsConnected then .ok s
  else do
    let d2 ← readByte data 2
    let d3 ← readByte data 3
    let gx := toInt16 ((d2 <<< 8 ||| d3) % 65536)
    let d4 ← readByte data 4
    let d5 ← readByte data 5
    let gy := toInt16 ((d4 <<< 8 ||| d5) % 65536)
    let d6 ← readByte data 6
    let d7 ← readByte data 7
    let gz := toInt16 ((d6 <<< 8 ||| d7) % 65536)
    let scale : ℚ := 1 / 16.4
    pure (sendJSON (fmt ((gx : ℚ) * scale) ((gy : ℚ) * scale) ((gz : ℚ) * scale)) s)

/-! ## main.cpp: radio link -/

/-- The callback `ClientCallbacks::onConnect`. -/
def onConnect (s : State) : State := { s with bleConnected := true }

/-- The callback `ClientCallbacks::onDisconnect`. -/
def onDisconnect (s : State) : State := { s with bleConnected := false, museStreaming := false }

/-- The function `subscribeChar(svc, uuid, cb)`. -/
def subscribeChar (g : Gatt) (c : Chr) (s : State) : Bool × State :=
  match g.sub c with
  | .notFound => (false, s.call (.subscribe s.bleClient c .notFound))
  | .subscribeFailed => (false, s.call (.subscribe s.bleClient c .subscribeFailed))
  | .subscribed => (true, s.call (.subscribe s.bleClient c .subscribed))

/-- The function `sendMuseCommand(ctrl, cmd)`; `ctrl` belongs to the current client. -/
def sendMuseCommand (g : Gatt) (cmd : List Nat) (s : State) : State :=
  let r := encodeMuseCommand cmd (List.replicate 32 0) 32
  if r.1 > 0 then
    s.call (.writeValue s.bleClient (r.2.take r.1.toNat) (g.writeOk (r.2.take r.1.toNat)))
  else s

/-- The function `startMuseStream()`. -/
def startMuseStream (g : Gatt) (s : State) : State :=
  let s := s.call (.getService s.bleClient)
  if !g.service then s
  else if !g.control then s
  else
    let s := (List.range 4).foldl (fun s i => (subscribeChar g (.eeg i) s).2) s
    let s := (subscribeChar g .accel s).2
    let s := (subscribeChar g .gyro s).2
    let s := (subscribeChar g .telemetry s).2
    let s := sendMuseCommand g (lit "h") s
    let s := sendMuseCommand g (lit "p21") s
    let s := sendMuseCommand g (lit "s") s
    { s with museStreaming := true }

/-- How one scan-and-connect attempt of `connectMuse` ends. -/
inductive ConnectOutcome
  | notFound
  | connectFailed
  | connected
deriving DecidableEq, Repr

/-- The function `connectMuse()`.  A found device makes `createClient()` return a new client
object; a successful `connect` runs the registered `onConnect` callback before it returns. -/
def connectMuse (o : ConnectOutcome) (s : State) : Bool × State :=
  let s := s.call .scan
  match o with
  | .notFound => (false, s)
  | .connectFailed => (false, { s with bleClient := s.bleClient + 1 })
  | .connected => (true, onConnect { s with bleClient := s.bleClient + 1 })

/-! ## main.cpp: transport -/

/-- The event types `wsEvent` distinguishes. -/
inductive WStype
  | CONNECTED
  | DISCONNECTED
  | TEXT
  | other
deriving DecidableEq, Repr

/-- The function `wsEvent(type, payload, length)`. -/
def wsEvent (g : Gatt) (t : WStype) (s : State) : State :=
  match t with
  | .CONNECTED =>
    let s := { s with wsConnected := true }
    if s.bleConnected && !s.museStreaming then startMuseStream g s else s
  | .DISCONNECTED => { s with wsConnected := false }
  | .TEXT => s
  | .other => s

/-! ## main.cpp: setup and loop -/

/-- The loop `while (!connectMuse()) delay(5000)` of `setup`, one outcome per attempt;
`none` while no attempt has succeeded. -/
def connectRetry : List ConnectOutcome → State → Option State
  | [], _ => none
  | o :: os, s => if (connectMuse o s).1 then some (connectMuse o s).2
    else connectRetry os (connectMuse o s).2

/-- The function `setup()`: the queue is created, then the radio connect is retried, then
the stream is started if the transport is up. -/
def setup (os : List ConnectOutcome) (g : Gatt) (s : State) : Option State :=
  match connectRetry os { s with wsQueue := some { capacity := WS_QUEUE_SIZE, items := [] } } with
  | none => none
  | some s1 => some (if s1.wsConnected then startMuseStream g s1 else s1)

/-- The effect of a successful `xQueueReceive` on the queue: the oldest message is gone and
`rest` remains. -/
def State.received (s : State) (rest : List WsMsg) : State :=
  { s with wsQueue := s.wsQueue.map (fun (q : Queue) => { q with items := rest }) }

/-- The drain loop of `loop`: each `xQueueReceive` takes the oldest message, which is sent
if the transport is up. -/
def drainLoop : List WsMsg → State → State
  | [], s => s
  | m :: rest, s =>
    drainLoop rest
      (if s.wsConnected then (s.received rest).call (.sendTXT m.json) else s.received rest)

/-- The drain loop started on the current queue. -/
def drainQueue (s : State) : State :=
  match s.wsQueue with
  | none => s
  | some q => drainLoop q.items s

/-- One evaluation of the condition of the drain loop and, when `xQueueReceive` returns
`pdTRUE`, of its body; `none` when the queue is empty and the loop exits. -/
def drainStep (s : State) : Option State :=
  match s.wsQueue with
  | none => none
  | some q =>
    match q.items with
    | [] => none
    | m :: rest =>
      some (if s.wsConnected then (s.received rest).call (.sendTXT m.json) else s.received rest)

/-- The drain loop run for at most `fuel` calls of `xQueueReceive`; `none` when the loop has
not exited within them. -/
def drainFuel : Nat → State → Option State
  | 0, _ => none
  | fuel + 1, s =>
    match drainStep s with
    | none => some s
    | some s1 => drainFuel fuel s1

/-- The block `if (!bleConnected) ...` of `loop`. -/
def reconnect (o : ConnectOutcome) (g : Gatt) (s : State) : State :=
  if !s.bleConnected then
    if (connectMuse o s).1 && (connectMuse o s).2.wsConnected then
      startMuseStream g (connectMuse o s).2
    else (connectMuse o s).2
  else s

/-- What the outside world does during one iteration of `loop`: the transport events that
`ws.loop()` delivers, and the answers to a reconnect attempt. -/
structure LoopEnv where
  wsEvents : List (WStype × Gatt)
  connect : ConnectOutcome
  gatt : Gatt

/-- The function `loop()`. -/
def loop (e : LoopEnv) (s : State) : State :=
  let s := e.wsEvents.foldl (fun s ev => wsEvent ev.2 ev.1 s) s
  let s := drainQueue s
  reconnect e.connect e.gatt s

/-! ## Packing of samples, as the protocol describes it -/

/-- The twelve bits of one sample, most significant first. -/
def sampleBits (v : Nat) : List Bool :=
  (List.range 12).map (fun k => v.testBit (11 - k))

/-- The bit string of a packet body: the samples one after the other, so that sample `i`
occupies bits `12 * i` to `12 * i + 11`. -/
def bitString (vs : List Nat) : List Bool := vs.flatMap sampleBits

/-- The byte made of eight bits, most significant first. -/
def byteOfBits (bs : List Bool) : Nat := bs.foldl (fun acc b => 2 * acc + b.toNat) 0

/-- A bit string cut into bytes of eight bits. -/
def bytesOfBits : List Bool → List Nat
  | b7 :: b6 :: b5 :: b4 :: b3 :: b2 :: b1 :: b0 :: rest =>
    byteOfBits [b7, b6, b5, b4, b3, b2, b1, b0] :: bytesOfBits rest
  | _ => []

/-- The payload that carries the given samples: their MSB-first concatenation, in bytes. -/
def packSamples (vs : List Nat) : List Nat := bytesOfBits (bitString vs)

/-- The value a 16-bit pattern denotes in two's complement. -/
def signed16 (w : Nat) : Int := if w < 32768 then (w : Int) else (w : Int) - 65536

/-! ## Concrete environments and states used to run the model -/

/-- A peripheral that exposes the service and every characteristic and accepts every
subscription and write. -/
def gattOk : Gatt :=
  { service := true, control := true, sub := fun _ => .subscribed, writeOk := fun _ => true }

/-- The state after `setup` has connected to the peripheral at the first attempt. -/
def afterSetup : State := (setup [.connected] gattOk boot).getD boot

/-- The state after the transport has then connected, which starts the stream. -/
def streamingState : State := wsEvent gattOk .CONNECTED afterSetup

/-! ## Observations on states and traces -/

/-- The start condition, in the words of the specification: both links are up and the
stream is not running. -/
def startCondition (s : State) : Bool := s.bleConnected && s.wsConnected && !s.museStreaming

/-- The client object a call addresses, if any. -/
def Call.client : Call → Option Nat
  | .scan => none
  | .getService c => some c
  | .subscribe c _ _ => some c
  | .writeValue c _ _ => some c
  | .sendTXT _ => none

/-- The byte strings written to the control characteristic, in order. -/
def writes : List Call → List (List Nat)
  | [] => []
  | .writeValue _ bytes _ :: cs => bytes :: writes cs
  | _ :: cs => writes cs

/-- The calls `startMuseStream` makes on client `c` once it has found the service and the
control characteristic. -/
def streamCalls (g : Gatt) (c : Nat) : List Call :=
  [.subscribe c (.eeg 0) (g.sub (.eeg 0)), .subscribe c (.eeg 1) (g.sub (.eeg 1)),
   .subscribe c (.eeg 2) (g.sub (.eeg 2)), .subscribe c (.eeg 3) (g.sub (.eeg 3)),
   .subscribe c .accel (g.sub .accel), .subscribe c .gyro (g.sub .gyro),
   .subscribe c .telemetry (g.sub .telemetry),
   .writeValue c [0x02, 104, 0x0A] (g.writeOk [0x02, 104, 0x0A]),
   .writeValue c [0x04, 112, 50, 49, 0x0A] (g.writeOk [0x04, 112, 50, 49, 0x0A]),
   .writeValue c [0x02, 115, 0x0A] (g.writeOk [0x02, 115, 0x0A])]

/-! ## The link-state machine

The callbacks of `ClientCallbacks` run on the task of the radio stack, the rest of the
firmware on the main task.  A callback can therefore land between any two statements of the
main task.  The only main-task code whose outcome depends on where a callback lands is a run
of `startMuseStream`, which ends by writing `museStreaming`; the functions below are the
triggers of `main.cpp` with the callbacks that land inside that run made explicit. -/

/-- The callbacks of `ClientCallbacks`. -/
inductive RadioCallback
  | connect
  | disconnect
deriving DecidableEq, Repr

/-- The effect of a callback of `ClientCallbacks`. -/
def RadioCallback.run (cb : RadioCallback) (s : State) : State :=
  match cb with
  | .connect => onConnect s
  | .disconnect => onDisconnect s

/-- The callbacks that land before each statement of one run of `startMuseStream`. -/
abbrev Landing := Nat → List RadioCallback

/-- No callback lands inside the run. -/
def noLanding : Landing := fun _ => []

/-- One `onDisconnect` lands before statement `k` of the run. -/
def disconnectAt (k : Nat) : Landing := fun pc => if pc = k then [.disconnect] else []

/-- The statements of `startMuseStream` in source order: 0 `getService` and its null test,
1 `getCharacteristic` of the control channel and its null test, 2 to 5 the EEG
subscriptions, 6 to 8 accelerometer, gyroscope and telemetry, 9 to 11 the three commands,
12 the assignment `museStreaming = true`.  The flag tells whether the function goes on to
the next statement. -/
def startStatement (g : Gatt) (pc : Nat) (s : State) : State × Bool :=
  match pc with
  | 0 => (s.call (.getService s.bleClient), g.service)
  | 1 => (s, g.control)
  | 2 => ((subscribeChar g (.eeg 0) s).2, true)
  | 3 => ((subscribeChar g (.eeg 1) s).2, true)
  | 4 => ((subscribeChar g (.eeg 2) s).2, true)
  | 5 => ((subscribeChar g (.eeg 3) s).2, true)
  | 6 => ((subscribeChar g .accel s).2, true)
  | 7 => ((subscribeChar g .gyro s).2, true)
  | 8 => ((subscribeChar g .telemetry s).2, true)
  | 9 => (sendMuseCommand g (lit "h") s, true)
  | 10 => (sendMuseCommand g (lit "p21") s, true)
  | 11 => (sendMuseCommand g (lit "s") s, true)
  | 12 => ({ s with museStreaming := true }, false)
  | _ => (s, false)

/-- A run of `startMuseStream` from statement `pc`, statement by statement, with the
callbacks that land before each of them. -/
def startRun (g : Gatt) (land : Landing) : Nat → Nat → State → State
  | 0, _, s => s
  | fuel + 1, pc, s =>
    if (startStatement g pc ((land pc).foldl (fun s cb => cb.run s) s)).2 then
      startRun g land fuel (pc + 1)
        (startStatement g pc ((land pc).foldl (fun s cb => cb.run s) s)).1
    else (startStatement g pc ((land pc).foldl (fun s cb => cb.run s) s)).1

/-- The function `startMuseStream()` with callbacks landing inside it. -/
def startMuseStreamRace (g : Gatt) (land : Landing) (s : State) : State :=
  startRun g land 13 0 s

/-- The function `wsEvent` with callbacks landing inside its run of `startMuseStream`. -/
def wsEventRace (g : Gatt) (land : Landing) (t : WStype) (s : State) : State :=
  match t with
  | .CONNECTED =>
    if s.bleConnected && !s.museStreaming then
      startMuseStreamRace g land { s with wsConnected := true }
    else { s with wsConnected := true }
  | .DISCONNECTED => { s with wsConnected := false }
  | .TEXT => s
  | .other => s

/-- The block `if (!bleConnected) ...` of `loop` with callbacks landing inside its run of
`startMuseStream`. -/
def reconnectRace (o : ConnectOutcome) (g : Gatt) (land : Landing) (s : State) : State :=
  if !s.bleConnected then
    if (connectMuse o s).1 && (connectMuse o s).2.wsConnected then
      startMuseStreamRace g land (connectMuse o s).2
    else (connectMuse o s).2
  else s

/-- The function `setup()` with callbacks landing inside its run of `startMuseStream`. -/
def setupRace (os : List ConnectOutcome) (g : Gatt) (land : Landing) (s : State) :
    Option State :=
  match connectRetry os { s with wsQueue := some { capacity := WS_QUEUE_SIZE, items := [] } } with
  | none => none
  | some s1 => some (if s1.wsConnected then startMuseStreamRace g land s1 else s1)

/-- What the outside world does during one iteration of `loop`, with the callbacks that
land inside each run of `startMuseStream`. -/
structure LoopRaceEnv where
  wsEvents : List (WStype × Gatt × Landing)
  connect : ConnectOutcome
  gatt : Gatt
  land : Landing

/-- The same iteration with the landings forgotten. -/
def LoopRaceEnv.forget (e : LoopRaceEnv) : LoopEnv :=
  { wsEvents := e.wsEvents.map (fun ev => (ev.1, ev.2.1)), connect := e.connect, gatt := e.gatt }

/-- The function `loop()` with callbacks landing inside its runs of `startMuseStream`. -/
def loopRace (e : LoopRaceEnv) (s : State) : State :=
  reconnectRace e.connect e.gatt e.land
    (drainQueue (e.wsEvents.foldl (fun s ev => wsEventRace ev.2.1 ev.2.2 ev.1 s) s))

/-- The events that drive the link state: the two radio callbacks landing between
main-task functions, a transport event, the run of `setup`, and one iteration of `loop`,
the last three with the callbacks that land inside them. -/
inductive Event
  | radioConnect
  | radioDisconnect
  | transport (t : WStype) (g : Gatt) (land : Landing)
  | setupStart (os : List ConnectOutcome) (g : Gatt) (land : Landing)
  | loopTick (e : LoopRaceEnv)

/-- The state after an event; `none` when `setup` is still retrying the radio connect. -/
def step (ev : Event) (s : State) : Option State :=
  match ev with
  | .radioConnect => some (onConnect s)
  | .radioDisconnect => some (onDisconnect s)
  | .transport t g land => some (wsEventRace g land t s)
  | .setupStart os g land => setupRace os g land s
  | .loopTick e => some (loopRace e s)

/-- The states reachable from boot by any sequence of events. -/
inductive Reachable : State → Prop
  | boot : Reachable boot
  | step (s s1 : State) (ev : Event) : Reachable s → step ev s = some s1 → Reachable s1

/-- The state after `setup`, then a transport-connected event during whose run of
`startMuseStream` the radio link is lost, the callback landing after the last command and
before the assignment to `museStreaming`. -/
def raceState : State := wsEventRace gattOk (disconnectAt 12) .CONNECTED afterSetup

/-- The streaming state after the radio link has then been lost. -/
def radioLostState : State := onDisconnect streamingState

/-- A stand-in for the `snprintf` of the telemetry handler: the battery value and the whole
degrees, as two character codes. -/
def fmtCodes (battery : Nat) (t : ℚ) : List Nat := [battery, (Int.floor t).toNat]

/-! ## Further observations used by the claims on the decoder -/

/-- The byte indices one iteration of the loop of `decodeEegSamples` reads, in the order
of the source: two in the first branch, three in the second. -/
def decodeReads (i : Nat) : List Nat :=
  if i * 12 % 8 ≤ 4 then [i * 12 / 8, i * 12 / 8 + 1]
  else [i * 12 / 8, i * 12 / 8 + 1, i * 12 / 8 + 2]

/-- One iteration of the loop of `decodeEegSamples` with the three-byte branch deleted. -/
def decodeRawTwoByte (data : List Nat) (i : Nat) : Except Nat Nat :=
  let bitOffset := i * 12
  let byteIdx := bitOffset / 8
  let bitShift := bitOffset % 8
  do
    let b0 ← readByte data byteIdx
    let b1 ← readByte data (byteIdx + 1)
    pure ((((b0 <<< 8 ||| b1) >>> (4 - bitShift)) % 65536) &&& 0x0FFF)

/-- The loop of `decodeEegSamples` over the two-byte iteration. -/
def decodeLoopTwoByte (data : List Nat) : Nat → Nat → List ℚ → Except Nat (List ℚ)
  | 0, _, out => .ok out
  | n + 1, i, out => do
    let raw ← decodeRawTwoByte data i
    decodeLoopTwoByte data n (i + 1) (out ++ [scaleRaw raw])

/-- The decoder obtained from `decodeEegSamples` by deleting the three-byte branch. -/
def decodeEegSamplesTwoByte (data : List Nat) : Except Nat (List ℚ) :=
  decodeLoopTwoByte data EEG_SAMPLES_PER_PACKET 0 []

/-- A peripheral that exposes everything and on which every write fails. -/
def gattWritesFail : Gatt :=
  { service := true, control := true, sub := fun _ => .subscribed, writeOk := fun _ => false }

/-- The subscriptions recorded in a trace: characteristic and outcome, in order. -/
def subscriptions : List Call → List (Chr × SubOutcome)
  | [] => []
  | .subscribe _ c r :: cs => (c, r) :: subscriptions cs
  | _ :: cs => subscriptions cs

/-- The results of the writes recorded in a trace, in order. -/
def writeResults : List Call → List Bool
  | [] => []
  | .writeValue _ _ ok :: cs => ok :: writeResults cs
  | _ :: cs => writeResults cs

/-- A peripheral on which the second EEG characteristic is missing and the gyroscope
subscription fails. -/
def gattPartial : Gatt :=
  { service := true, control := true,
    sub := fun c =>
      match c with
      | .eeg 1 => .notFound
      | .gyro => .subscribeFailed
      | _ => .subscribed,
    writeOk := fun _ => true }

/-- A stand-in for the `snprintf` of the motion handlers: the whole part of each
component, as three numbers. -/
def fmtFloors (x y z : ℚ) : List Nat :=
  [(Int.floor x).natAbs, (Int.floor y).natAbs, (Int.floor z).natAbs]

/-! ## Theorems -/


/-! ### Shared facts -/

theorem bind_ok {ε α β : Type} (a : α) (f : α → Except ε β) :
    (Except.ok a >>= f) = f a := rfl

theorem or_bytes (b0 b1 : Nat) (h1 : b1 < 256) : b0 <<< 8 ||| b1 = b0 * 256 + b1 := by
  rw [Nat.shiftLeft_eq, Nat.mul_comm b0]
  exact (Nat.mul_add_lt_is_or (by simpa using h1) b0).symm

/-! ### decodeEegSamples -/

theorem nib_lo (a : Nat) :
    2 * (2 * (2 * (2 * 0 + a / 2 ^ 3 % 2) + a / 2 ^ 2 % 2) + a / 2 ^ 1 % 2) + a / 2 ^ 0 % 2
      = a % 16 := by omega

theorem nib_hi (b x : Nat) (h : b < 4096) :
    2 * (2 * (2 * (2 * x + b / 2 ^ 11 % 2) + b / 2 ^ 10 % 2) + b / 2 ^ 9 % 2) + b / 2 ^ 8 % 2
      = x * 16 + b / 256 := by omega

theorem byteOfBits_hi (v : Nat) (h : v < 4096) :
    byteOfBits [v.testBit 11, v.testBit 10, v.testBit 9, v.testBit 8,
      v.testBit 7, v.testBit 6, v.testBit 5, v.testBit 4] = v / 16 := by
  simp only [byteOfBits, List.foldl, Nat.toNat_testBit]
  omega

theorem byteOfBits_mid (a b : Nat) (h : b < 4096) :
    byteOfBits [a.testBit 3, a.testBit 2, a.testBit 1, a.testBit 0,
      b.testBit 11, b.testBit 10, b.testBit 9, b.testBit 8] = a % 16 * 16 + b / 256 := by
  simp only [byteOfBits, List.foldl, Nat.toNat_testBit]
  rw [nib_lo]
  exact nib_hi b (a % 16) h

theorem nib_mid (v : Nat) :
    2 * (2 * (2 * (2 * 0 + v / 2 ^ 7 % 2) + v / 2 ^ 6 % 2) + v / 2 ^ 5 % 2) + v / 2 ^ 4 % 2
      = v / 16 % 16 := by omega

theorem nib_low (v x : Nat) :
    2 * (2 * (2 * (2 * x + v / 2 ^ 3 % 2) + v / 2 ^ 2 % 2) + v / 2 ^ 1 % 2) + v / 2 ^ 0 % 2
      = x * 16 + v % 16 := by omega

theorem byteOfBits_lo (v : Nat) :
    byteOfBits [v.testBit 7, v.testBit 6, v.testBit 5, v.testBit 4,
      v.testBit 3, v.testBit 2, v.testBit 1, v.testBit 0] = v % 256 := by
  simp only [byteOfBits, List.foldl, Nat.toNat_testBit]
  rw [nib_mid, nib_low]
  omega

theorem pack12_bits (v0 v1 v2 v3 v4 v5 v6 v7 v8 v9 v10 v11 : Nat) :
  packSamples [v0, v1, v2, v3, v4, v5, v6, v7, v8, v9, v10, v11] =
   [byteOfBits [v0.testBit 11, v0.testBit 10, v0.testBit 9, v0.testBit 8, v0.testBit 7, v0.testBit 6, v0.testBit 5, v0.testBit 4],
    byteOfBits [v0.testBit 3, v0.testBit 2, v0.testBit 1, v0.testBit 0, v1.testBit 11, v1.testBit 10, v1.testBit 9, v1.testBit 8],
    byteOfBits [v1.testBit 7, v1.testBit 6, v1.testBit 5, v1.testBit 4, v1.testBit 3, v1.testBit 2, v1.testBit 1, v1.testBit 0],
    byteOfBits [v2.testBit 11, v2.testBit 10, v2.testBit 9, v2.testBit 8, v2.testBit 7, v2.testBit 6, v2.testBit 5, v2.testBit 4],
    byteOfBits [v2.testBit 3, v2.testBit 2, v2.testBit 1, v2.testBit 0, v3.testBit 11, v3.testBit 10, v3.testBit 9, v3.testBit 8],
    byteOfBits [v3.testBit 7, v3.testBit 6, v3.testBit 5, v3.testBit 4, v3.testBit 3, v3.testBit 2, v3.testBit 1, v3.testBit 0],
    byteOfBits [v4.testBit 11, v4.testBit 10, v4.testBit 9, v4.testBit 8, v4.testBit 7, v4.testBit 6, v4.testBit 5, v4.testBit 4],
    byteOfBits [v4.testBit 3, v4.testBit 2, v4.testBit 1, v4.testBit 0, v5.testBit 11, v5.testBit 10, v5.testBit 9, v5.testBit 8],
    byteOfBits [v5.testBit 7, v5.testBit 6, v5.testBit 5, v5.testBit 4, v5.testBit 3, v5.testBit 2, v5.testBit 1, v5.testBit 0],
    byteOfBits [v6.testBit 11, v6.testBit 10, v6.testBit 9, v6.testBit 8, v6.testBit 7, v6.testBit 6, v6.testBit 5, v6.testBit 4],
    byteOfBits [v6.testBit 3, v6.testBit 2, v6.testBit 1, v6.testBit 0, v7.testBit 11, v7.testBit 10, v7.testBit 9, v7.testBit 8],
    byteOfBits [v7.testBit 7, v7.testBit 6, v7.testBit 5, v7.testBit 4, v7.testBit 3, v7.testBit 2, v7.testBit 1, v7.testBit 0],
    byteOfBits [v8.testBit 11, v8.testBit 10, v8.testBit 9, v8.testBit 8, v8.testBit 7, v8.testBit 6, v8.testBit 5, v8.testBit 4],
    byteOfBits [v8.testBit 3, v8.testBit 2, v8.testBit 1, v8.testBit 0, v9.testBit 11, v9.testBit 10, v9.testBit 9, v9.testBit 8],
    byteOfBits [v9.testBit 7, v9.testBit 6, v9.testBit 5, v9.testBit 4, v9.testBit 3, v9.testBit 2, v9.testBit 1, v9.testBit 0],
    byteOfBits [v10.testBit 11, v10.testBit 10, v10.testBit 9, v10.testBit 8, v10.testBit 7, v10.testBit 6, v10.testBit 5, v10.testBit 4],
    byteOfBits [v10.testBit 3, v10.testBit 2, v10.testBit 1, v10.testBit 0, v11.testBit 11, v11.testBit 10, v11.testBit 9, v11.testBit 8],
    byteOfBits [v11.testBit 7, v11.testBit 6, v11.testBit 5, v11.testBit 4, v11.testBit 3, v11.testBit 2, v11.testBit 1, v11.testBit 0]] := by
  rfl

theorem pack12 (v0 v1 v2 v3 v4 v5 v6 v7 v8 v9 v10 v11 : Nat) (h0 : v0 < 4096) (h1 : v1 < 4096) (h2 : v2 < 4096) (h3 : v3 < 4096) (h4 : v4 < 4096) (h5 : v5 < 4096) (h6 : v6 < 4096) (h7 : v7 < 4096) (h8 : v8 < 4096) (h9 : v9 < 4096) (h10 : v10 < 4096) (h11 : v11 < 4096) :
  packSamples [v0, v1, v2, v3, v4, v5, v6, v7, v8, v9, v10, v11] =
   [v0 / 16, v0 % 16 * 16 + v1 / 256, v1 % 256,
    v2 / 16, v2 % 16 * 16 + v3 / 256, v3 % 256,
    v4 / 16, v4 % 16 * 16 + v5 / 256, v5 % 256,
    v6 / 16, v6 % 16 * 16 + v7 / 256, v7 % 256,
    v8 / 16, v8 % 16 * 16 + v9 / 256, v9 % 256,
    v10 / 16, v10 % 16 * 16 + v11 / 256, v11 % 256] := by
  rw [pack12_bits, byteOfBits_hi v0 h0, byteOfBits_mid v0 v1 h1, byteOfBits_lo v1, byteOfBits_hi v2 h2, byteOfBits_mid v2 v3 h3, byteOfBits_lo v3, byteOfBits_hi v4 h4, byteOfBits_mid v4 v5 h5, byteOfBits_lo v5, byteOfBits_hi v6 h6, byteOfBits_mid v6 v7 h7, byteOfBits_lo v7, byteOfBits_hi v8 h8, byteOfBits_mid v8 v9 h9, byteOfBits_lo v9, byteOfBits_hi v10 h10, byteOfBits_mid v10 v11 h11, byteOfBits_lo v11]


theorem and_fff (x : Nat) : x &&& 0x0FFF = x % 4096 :=
  Nat.and_pow_two_sub_one_eq_mod x 12

theorem decodeRaw_two (data : List Nat) (i b0 b1 : Nat) (hs : i * 12 % 8 ≤ 4)
    (e0 : data[i * 12 / 8]? = some b0) (e1 : data[i * 12 / 8 + 1]? = some b1)
    (l0 : b0 < 256) (l1 : b1 < 256) :
    decodeRaw data i = .ok ((b0 * 256 + b1) / 2 ^ (4 - i * 12 % 8) % 4096) := by
  have hlt : (b0 * 256 + b1) / 2 ^ (4 - i * 12 % 8) < 65536 :=
    lt_of_le_of_lt (Nat.div_le_self _ _) (by omega)
  simp only [decodeRaw, hs, if_true, readByte, e0, e1]
  show Except.ok _ = _
  rw [or_bytes b0 b1 l1, Nat.shiftRight_eq_div_pow, Nat.mod_eq_of_lt hlt, and_fff]


theorem decodeEeg12 (v0 v1 v2 v3 v4 v5 v6 v7 v8 v9 v10 v11 : Nat) (h0 : v0 < 4096) (h1 : v1 < 4096) (h2 : v2 < 4096) (h3 : v3 < 4096) (h4 : v4 < 4096) (h5 : v5 < 4096) (h6 : v6 < 4096) (h7 : v7 < 4096) (h8 : v8 < 4096) (h9 : v9 < 4096) (h10 : v10 < 4096) (h11 : v11 < 4096) :
    decodeEegSamples (packSamples [v0, v1, v2, v3, v4, v5, v6, v7, v8, v9, v10, v11]) = .ok ([v0, v1, v2, v3, v4, v5, v6, v7, v8, v9, v10, v11].map scaleRaw) := by
  rw [pack12 v0 v1 v2 v3 v4 v5 v6 v7 v8 v9 v10 v11 h0 h1 h2 h3 h4 h5 h6 h7 h8 h9 h10 h11]
  have r0 : decodeRaw ([v0 / 16, v0 % 16 * 16 + v1 / 256, v1 % 256,
    v2 / 16, v2 % 16 * 16 + v3 / 256, v3 % 256,
    v4 / 16, v4 % 16 * 16 + v5 / 256, v5 % 256,
    v6 / 16, v6 % 16 * 16 + v7 / 256, v7 % 256,
    v8 / 16, v8 % 16 * 16 + v9 / 256, v9 % 256,
    v10 / 16, v10 % 16 * 16 + v11 / 256, v11 % 256]) 0 = .ok v0 := by
    rw [decodeRaw_two _ 0 (v0 / 16) (v0 % 16 * 16 + v1 / 256) (by decide) rfl rfl
      (by omega) (by omega)]
    show Except.ok ((v0 / 16 * 256 + (v0 % 16 * 16 + v1 / 256)) / 16 % 4096) = _
    congr 1; omega
  have r1 : decodeRaw ([v0 / 16, v0 % 16 * 16 + v1 / 256, v1 % 256,
    v2 / 16, v2 % 16 * 16 + v3 / 256, v3 % 256,
    v4 / 16, v4 % 16 * 16 + v5 / 256, v5 % 256,
    v6 / 16, v6 % 16 * 16 + v7 / 256, v7 % 256,
    v8 / 16, v8 % 16 * 16 + v9 / 256, v9 % 256,
    v10 / 16, v10 % 16 * 16 + v11 / 256, v11 % 256]) 1 = .ok v1 := by
    rw [decodeRaw_two _ 1 (v0 % 16 * 16 + v1 / 256) (v1 % 256) (by decide) rfl rfl
      (by omega) (by omega)]
    show Except.ok (((v0 % 16 * 16 + v1 / 256) * 256 + v1 % 256) / 1 % 4096) = _
    congr 1; omega
  have r2 : decodeRaw ([v0 / 16, v0 % 16 * 16 + v1 / 256, v1 % 256,
    v2 / 16, v2 % 16 * 16 + v3 / 256, v3 % 256,
    v4 / 16, v4 % 16 * 16 + v5 / 256, v5 % 256,
    v6 / 16, v6 % 16 * 16 + v7 / 256, v7 % 256,
    v8 / 16, v8 % 16 * 16 + v9 / 256, v9 % 256,
    v10 / 16, v10 % 16 * 16 + v11 / 256, v11 % 256]) 2 = .ok v2 := by
    rw [decodeRaw_two _ 2 (v2 / 16) (v2 % 16 * 16 + v3 / 256) (by decide) rfl rfl
      (by omega) (by omega)]
    show Except.ok ((v2 / 16 * 256 + (v2 % 16 * 16 + v3 / 256)) / 16 % 4096) = _
    congr 1; omega
  have r3 : decodeRaw ([v0 / 16, v0 % 16 * 16 + v1 / 256, v1 % 256,
    v2 / 16, v2 % 16 * 16 + v3 / 256, v3 % 256,
    v4 / 16, v4 % 16 * 16 + v5 / 256, v5 % 256,
    v6 / 16, v6 % 16 * 16 + v7 / 256, v7 % 256,
    v8 / 16, v8 % 16 * 16 + v9 / 256, v9 % 256,
    v10 / 16, v10 % 16 * 16 + v11 / 256, v11 % 256]) 3 = .ok v3 := by
    rw [decodeRaw_two _ 3 (v2 % 16 * 16 + v3 / 256) (v3 % 256) (by decide) rfl rfl
      (by omega) (by omega)]
    show Except.ok (((v2 % 16 * 16 + v3 / 256) * 256 + v3 % 256) / 1 % 4096) = _
    congr 1; omega
  have r4 : decodeRaw ([v0 / 16, v0 % 16 * 16 + v1 / 256, v1 % 256,
    v2 / 16, v2 % 16 * 16 + v3 / 256, v3 % 256,
    v4 / 16, v4 % 16 * 16 + v5 / 256, v5 % 256,
    v6 / 16, v6 % 16 * 16 + v7 / 256, v7 % 256,
    v8 / 16, v8 % 16 * 16 + v9 / 256, v9 % 256,
    v10 / 16, v10 % 16 * 16 + v11 / 256, v11 % 256]) 4 = .ok v4 := by
    rw [decodeRaw_two _ 4 (v4 / 16) (v4 % 16 * 16 + v5 / 256) (by decide) rfl rfl
      (by omega) (by omega)]
    show Except.ok ((v4 / 16 * 256 + (v4 % 16 * 16 + v5 / 256)) / 16 % 4096) = _
    congr 1; omega
  have r5 : decodeRaw ([v0 / 16, v0 % 16 * 16 + v1 / 256, v1 % 256,
    v2 / 16, v2 % 16 * 16 + v3 / 256, v3 % 256,
    v4 / 16, v4 % 16 * 16 + v5 / 256, v5 % 256,
    v6 / 16, v6 % 16 * 16 + v7 / 256, v7 % 256,
    v8 / 16, v8 % 16 * 16 + v9 / 256, v9 % 256,
    v10 / 16, v10 % 16 * 16 + v11 / 256, v11 % 256]) 5 = .ok v5 := by
    rw [decodeRaw_two _ 5 (v4 % 16 * 16 + v5 / 256) (v5 % 256) (by decide) rfl rfl
      (by omega) (by omega)]
    show Except.ok (((v4 % 16 * 16 + v5 / 256) * 256 + v5 % 256) / 1 % 4096) = _
    congr 1; omega
  have r6 : decodeRaw ([v0 / 16, v0 % 16 * 16 + v1 / 256, v1 % 256,
    v2 / 16, v2 % 16 * 16 + v3 / 256, v3 % 256,
    v4 / 16, v4 % 16 * 16 + v5 / 256, v5 % 256,
    v6 / 16, v6 % 16 * 16 + v7 / 256, v7 % 256,
    v8 / 16, v8 % 16 * 16 + v9 / 256, v9 % 256,
    v10 / 16, v10 % 16 * 16 + v11 / 256, v11 % 256]) 6 = .ok v6 := by
    rw [decodeRaw_two _ 6 (v6 / 16) (v6 % 16 * 16 + v7 / 256) (by decide) rfl rfl
      (by omega) (by omega)]
    show Except.ok ((v6 / 16 * 256 + (v6 % 16 * 16 + v7 / 256)) / 16 % 4096) = _
    congr 1; omega
  have r7 : decodeRaw ([v0 / 16, v0 % 16 * 16 + v1 / 256, v1 % 256,
    v2 / 16, v2 % 16 * 16 + v3 / 256, v3 % 256,
    v4 / 16, v4 % 16 * 16 + v5 / 256, v5 % 256,
    v6 / 16, v6 % 16 * 16 + v7 / 256, v7 % 256,
    v8 / 16, v8 % 16 * 16 + v9 / 256, v9 % 256,
    v10 / 16, v10 % 16 * 16 + v11 / 256, v11 % 256]) 7 = .ok v7 := by
    rw [decodeRaw_two _ 7 (v6 % 16 * 16 + v7 / 256) (v7 % 256) (by decide) rfl rfl
      (by omega) (by omega)]
    show Except.ok (((v6 % 16 * 16 + v7 / 256) * 256 + v7 % 256) / 1 % 4096) = _
    congr 1; omega
  have r8 : decodeRaw ([v0 / 16, v0 % 16 * 16 + v1 / 256, v1 % 256,
    v2 / 16, v2 % 16 * 16 + v3 / 256, v3 % 256,
    v4 / 16, v4 % 16 * 16 + v5 / 256, v5 % 256,
    v6 / 16, v6 % 16 * 16 + v7 / 256, v7 % 256,
    v8 / 16, v8 % 16 * 16 + v9 / 256, v9 % 256,
    v10 / 16, v10 % 16 * 16 + v11 / 256, v11 % 256]) 8 = .ok v8 := by
    rw [decodeRaw_two _ 8 (v8 / 16) (v8 % 16 * 16 + v9 / 256) (by decide) rfl rfl
      (by omega) (by omega)]
    show Except.ok ((v8 / 16 * 256 + (v8 % 16 * 16 + v9 / 256)) / 16 % 4096) = _
    congr 1; omega
  have r9 : decodeRaw ([v0 / 16, v0 % 16 * 16 + v1 / 256, v1 % 256,
    v2 / 16, v2 % 16 * 16 + v3 / 256, v3 % 256,
    v4 / 16, v4 % 16 * 16 + v5 / 256, v5 % 256,
    v6 / 16, v6 % 16 * 16 + v7 / 256, v7 % 256,
    v8 / 16, v8 % 16 * 16 + v9 / 256, v9 % 256,
    v10 / 16, v10 % 16 * 16 + v11 / 256, v11 % 256]) 9 = .ok v9 := by
    rw [decodeRaw_two _ 9 (v8 % 16 * 16 + v9 / 256) (v9 % 256) (by decide) rfl rfl
      (by omega) (by omega)]
    show Except.ok (((v8 % 16 * 16 + v9 / 256) * 256 + v9 % 256) / 1 % 4096) = _
    congr 1; omega
  have r10 : decodeRaw ([v0 / 16, v0 % 16 * 16 + v1 / 256, v1 % 256,
    v2 / 16, v2 % 16 * 16 + v3 / 256, v3 % 256,
    v4 / 16, v4 % 16 * 16 + v5 / 256, v5 % 256,
    v6 / 16, v6 % 16 * 16 + v7 / 256, v7 % 256,
    v8 / 16, v8 % 16 * 16 + v9 / 256, v9 % 256,
    v10 / 16, v10 % 16 * 16 + v11 / 256, v11 % 256]) 10 = .ok v10 := by
    rw [decodeRaw_two _ 10 (v10 / 16) (v10 % 16 * 16 + v11 / 256) (by decide) rfl rfl
      (by omega) (by omega)]
    show Except.ok ((v10 / 16 * 256 + (v10 % 16 * 16 + v11 / 256)) / 16 % 4096) = _
    congr 1; omega
  have r11 : decodeRaw ([v0 / 16, v0 % 16 * 16 + v1 / 256, v1 % 256,
    v2 / 16, v2 % 16 * 16 + v3 / 256, v3 % 256,
    v4 / 16, v4 % 16 * 16 + v5 / 256, v5 % 256,
    v6 / 16, v6 % 16 * 16 + v7 / 256, v7 % 256,
    v8 / 16, v8 % 16 * 16 + v9 / 256, v9 % 256,
    v10 / 16, v10 % 16 * 16 + v11 / 256, v11 % 256]) 11 = .ok v11 := by
    rw [decodeRaw_two _ 11 (v10 % 16 * 16 + v11 / 256) (v11 % 256) (by decide) rfl rfl
      (by omega) (by omega)]
    show Except.ok (((v10 % 16 * 16 + v11 / 256) * 256 + v11 % 256) / 1 % 4096) = _
    congr 1; omega
  simp only [decodeEegSamples, EEG_SAMPLES_PER_PACKET, decodeLoop, r0, r1, r2, r3, r4, r5, r6, r7, r8, r9, r10, r11, bind_ok]
  rfl

theorem list12 (vs : List Nat) (h : vs.length = 12) :
    ∃ v0 v1 v2 v3 v4 v5 v6 v7 v8 v9 v10 v11, vs = [v0, v1, v2, v3, v4, v5, v6, v7, v8, v9, v10, v11] := by
  match vs, h with
  | [v0, v1, v2, v3, v4, v5, v6, v7, v8, v9, v10, v11], _ => exact ⟨v0, v1, v2, v3, v4, v5, v6, v7, v8, v9, v10, v11, rfl⟩

theorem scaleRaw_eq (v : Nat) : scaleRaw v = ((v : ℚ) - 2048) * 0.48828125 := by
  simp [scaleRaw, EEG_OFFSET, EEG_SCALE]

/-- C1: when the 18-byte payload is the MSB-first concatenation of twelve 12-bit values,
`decodeEegSamples` writes `(v_i - 2048) * 0.48828125` for each of them, in payload order. -/
theorem decodeEegSamples_roundtrip (vs : List Nat) (hlen : vs.length = 12)
    (hv : ∀ v ∈ vs, v ≤ 4095) :
    decodeEegSamples (packSamples vs)
      = .ok (vs.map (fun v => ((v : ℚ) - 2048) * 0.48828125)) := by
  obtain ⟨v0, v1, v2, v3, v4, v5, v6, v7, v8, v9, v10, v11, rfl⟩ := list12 vs hlen
  simp only [List.mem_cons, List.mem_singleton, forall_eq_or_imp, forall_eq, List.not_mem_nil,
    false_imp_iff, implies_true, and_true] at hv
  obtain ⟨h0, h1, h2, h3, h4, h5, h6, h7, h8, h9, h10, h11⟩ := hv
  rw [decodeEeg12 v0 v1 v2 v3 v4 v5 v6 v7 v8 v9 v10 v11 (by omega) (by omega) (by omega) (by omega) (by omega) (by omega) (by omega) (by omega) (by omega) (by omega) (by omega) (by omega)]
  simp only [List.map, scaleRaw_eq]

/-- Witness of C1 at the samples 0xABC, 0xDEF, 1, ..., 9, 4095. -/
theorem decodeEegSamples_roundtrip_witness :
    decodeEegSamples (packSamples [0xABC, 0xDEF, 1, 2, 3, 4, 5, 6, 7, 8, 9, 4095])
      = .ok ([0xABC, 0xDEF, 1, 2, 3, 4, 5, 6, 7, 8, 9, 4095].map
          (fun v => ((v : ℚ) - 2048) * 0.48828125)) :=
  decodeEegSamples_roundtrip [0xABC, 0xDEF, 1, 2, 3, 4, 5, 6, 7, 8, 9, 4095] (by decide)
    (by decide)

/-- Every float that `decodeEegSamples` computes from a 12-bit `raw` is `m / 256` for an
integer `m` of magnitude below `2 ^ 24`, so binary32 arithmetic introduces no rounding. -/
theorem scaleRaw_exact (raw : Nat) (h : raw < 4096) :
    ∃ m : Int, -(2 ^ 24) < m ∧ m < 2 ^ 24 ∧ scaleRaw raw = (m : ℚ) / 256 := by
  refine ⟨((raw : Int) - 2048) * 125, by omega, by omega, ?_⟩
  simp only [scaleRaw, EEG_OFFSET, EEG_SCALE]
  push_cast
  norm_num
  ring

/-! ### encodeMuseCommand -/

theorem strlen_eq_length (cmd : List Nat) (h : ∀ c ∈ cmd, c ≠ 0) : strlen cmd = cmd.length := by
  induction cmd with
  | nil => rfl
  | cons c cs ih =>
    have hc : c ≠ 0 := h c (List.mem_cons_self c cs)
    have hcs : ∀ x ∈ cs, x ≠ 0 := fun x hx => h x (List.mem_cons_of_mem c hx)
    simp [strlen, hc, ih hcs]

theorem copy_length (cmd : List Nat) (n : Nat) (b : List Nat) :
    ((List.range n).foldl (fun b i => b.set (i + 1) (cmd.getD i 0 % 256)) b).length
      = b.length := by
  induction n with
  | zero => rfl
  | succ n ih =>
    rw [List.range_succ, List.foldl_append]
    simp only [List.foldl_cons, List.foldl_nil, List.length_set]
    exact ih

theorem copy_get (cmd : List Nat) (n : Nat) (b : List Nat) (j : Nat) :
    ((List.range n).foldl (fun b i => b.set (i + 1) (cmd.getD i 0 % 256)) b)[j]?
      = if 1 ≤ j ∧ j ≤ n ∧ j < b.length then some (cmd.getD (j - 1) 0 % 256) else b[j]? := by
  induction n with
  | zero =>
    have : ¬ (1 ≤ j ∧ j ≤ 0 ∧ j < b.length) := by omega
    simp only [List.range_zero, List.foldl_nil, if_neg this]
  | succ n ih =>
    rw [List.range_succ, List.foldl_append]
    simp only [List.foldl_cons, List.foldl_nil]
    rw [List.getElem?_set, copy_length, ih]
    by_cases hj : n + 1 = j
    · subst hj
      by_cases hl : n + 1 < b.length
      · simp [hl]
      · have : b[n + 1]? = none := List.getElem?_eq_none (by omega)
        simp [hl, this]
    · by_cases h1 : 1 ≤ j ∧ j ≤ n ∧ j < b.length
      · have h2 : 1 ≤ j ∧ j ≤ n + 1 ∧ j < b.length := by omega
        simp [hj, h1, h2]
      · have h2 : ¬ (1 ≤ j ∧ j ≤ n + 1 ∧ j < b.length) := by omega
        simp [hj, h1, h2]

/-- C2: for a text of `n` ASCII characters with `n + 2 <= 32`, `encodeMuseCommand` on a
32-byte buffer returns `n + 2` and leaves `buf[0] = n + 1`, the text in `buf[1..n]` and
`0x0A` in `buf[n + 1]`; "h" gives `[0x02, 'h', 0x0A]` and "p21" gives
`[0x04, 'p', '2', '1', 0x0A]`. -/
theorem encodeMuseCommand_frame :
    (∀ (cmd buf : List Nat), buf.length = 32 → (∀ c ∈ cmd, 0 < c ∧ c < 128) →
      cmd.length + 2 ≤ 32 →
      (encodeMuseCommand cmd buf 32).1 = ((cmd.length + 2 : Nat) : Int) ∧
      (encodeMuseCommand cmd buf 32).2[0]? = some (cmd.length + 1) ∧
      (∀ i, i < cmd.length → (encodeMuseCommand cmd buf 32).2[i + 1]? = cmd[i]?) ∧
      (encodeMuseCommand cmd buf 32).2[cmd.length + 1]? = some 0x0A ∧
      (encodeMuseCommand cmd buf 32).2.take (cmd.length + 2)
        = (cmd.length + 1) :: (cmd ++ [0x0A])) ∧
    (∀ buf : List Nat, buf.length = 32 →
      (encodeMuseCommand (lit "h") buf 32).1 = 3 ∧
      (encodeMuseCommand (lit "h") buf 32).2.take 3 = [0x02, ('h').toNat, 0x0A]) ∧
    (∀ buf : List Nat, buf.length = 32 →
      (encodeMuseCommand (lit "p21") buf 32).1 = 5 ∧
      (encodeMuseCommand (lit "p21") buf 32).2.take 5
        = [0x04, ('p').toNat, ('2').toNat, ('1').toNat, 0x0A]) := by
  have main : ∀ (cmd buf : List Nat), buf.length = 32 → (∀ c ∈ cmd, 0 < c ∧ c < 128) →
      cmd.length + 2 ≤ 32 →
      (encodeMuseCommand cmd buf 32).1 = ((cmd.length + 2 : Nat) : Int) ∧
      (encodeMuseCommand cmd buf 32).2[0]? = some (cmd.length + 1) ∧
      (∀ i, i < cmd.length → (encodeMuseCommand cmd buf 32).2[i + 1]? = cmd[i]?) ∧
      (encodeMuseCommand cmd buf 32).2[cmd.length + 1]? = some 0x0A ∧
      (encodeMuseCommand cmd buf 32).2.take (cmd.length + 2)
        = (cmd.length + 1) :: (cmd ++ [0x0A]) := by
    intro cmd buf hbuf hc hlen
    have hs : strlen cmd = cmd.length :=
      strlen_eq_length cmd (fun c hcm => Nat.pos_iff_ne_zero.mp (hc c hcm).1)
    have hcond : ¬ (((cmd.length + 1 + 1 : Nat) : Int) > 32) := by omega
    have e : encodeMuseCommand cmd buf 32 = (((cmd.length + 1 + 1 : Nat) : Int),
        (((List.range cmd.length).foldl (fun b i => b.set (i + 1) (cmd.getD i 0 % 256))
          (buf.set 0 ((cmd.length + 1) % 256))).set (cmd.length + 1) 0x0A)) := by
      simp only [encodeMuseCommand, hs, hcond, if_false]
    have g : ∀ j, (encodeMuseCommand cmd buf 32).2[j]?
        = if j = 0 then some (cmd.length + 1)
          else if j ≤ cmd.length then some (cmd.getD (j - 1) 0 % 256)
          else if j = cmd.length + 1 then some 0x0A else buf[j]? := by
      intro j
      rw [e]
      simp only
      rw [List.getElem?_set, copy_length, copy_get, List.length_set, List.getElem?_set, hbuf]
      have hm : (cmd.length + 1) % 256 = cmd.length + 1 := Nat.mod_eq_of_lt (by omega)
      rw [hm]
      by_cases h0 : j = 0
      · subst h0
        simp
      · by_cases h1 : j ≤ cmd.length
        · have : 1 ≤ j ∧ j ≤ cmd.length ∧ j < 32 := by omega
          have h2 : ¬ (cmd.length + 1 = j) := by omega
          simp [h0, h1, this, h2]
        · by_cases h2 : j = cmd.length + 1
          · subst h2
            simp
            omega
          · have h3 : ¬ (cmd.length + 1 = j) := by omega
            have h4 : ¬ (1 ≤ j ∧ j ≤ cmd.length ∧ j < 32) := by omega
            have h5 : ¬ (0 = j) := by omega
            simp [h0, h1, h2, h3, h4, h5]
    have gi : ∀ i, i < cmd.length → (encodeMuseCommand cmd buf 32).2[i + 1]? = cmd[i]? := by
      intro i hi
      rw [g (i + 1)]
      have hlt : cmd[i] < 128 := (hc _ (List.getElem_mem hi)).2
      have hd : cmd.getD i 0 = cmd[i] := by
        simp [List.getD, List.getElem?_eq_getElem hi]
      have hmod : cmd[i] % 256 = cmd[i] := Nat.mod_eq_of_lt (by omega)
      have h1 : i + 1 ≤ cmd.length := hi
      simp [h1, hd, hmod, List.getElem?_eq_getElem hi]
    refine ⟨by rw [e], by rw [g 0]; simp, gi, by rw [g (cmd.length + 1)]; simp, ?_⟩
    apply List.ext_getElem?
    intro j
    by_cases hj : j < cmd.length + 2
    · rw [List.getElem?_take_of_lt hj]
      by_cases h0 : j = 0
      · subst h0
        rw [g 0]
        simp
      · obtain ⟨k, rfl⟩ : ∃ k, j = k + 1 := ⟨j - 1, by omega⟩
        rw [List.getElem?_cons_succ]
        by_cases hk : k < cmd.length
        · rw [gi k hk, List.getElem?_append_left hk]
        · have hk2 : k = cmd.length := by omega
          subst hk2
          rw [g (cmd.length + 1)]
          simp
    · have h1 : ((encodeMuseCommand cmd buf 32).2.take (cmd.length + 2))[j]? = none :=
        List.getElem?_eq_none (by simp; omega)
      have h2 : ((cmd.length + 1) :: (cmd ++ [0x0A]))[j]? = none :=
        List.getElem?_eq_none (by simp; omega)
      rw [h1, h2]
  refine ⟨main, ?_, ?_⟩
  · intro buf hbuf
    obtain ⟨h1, -, -, -, h5⟩ := main (lit "h") buf hbuf (by decide) (by decide)
    exact ⟨h1, h5⟩
  · intro buf hbuf
    obtain ⟨h1, -, -, -, h5⟩ := main (lit "p21") buf hbuf (by decide) (by decide)
    exact ⟨h1, h5⟩

/-- Witness of C2 at the text "p21" and a zeroed 32-byte buffer. -/
theorem encodeMuseCommand_frame_witness :
    (encodeMuseCommand (lit "p21") (List.replicate 32 0) 32).1
      = (((lit "p21").length + 2 : Nat) : Int) ∧
    (encodeMuseCommand (lit "p21") (List.replicate 32 0) 32).2[0]?
      = some ((lit "p21").length + 1) ∧
    (∀ i, i < (lit "p21").length →
      (encodeMuseCommand (lit "p21") (List.replicate 32 0) 32).2[i + 1]? = (lit "p21")[i]?) ∧
    (encodeMuseCommand (lit "p21") (List.replicate 32 0) 32).2[(lit "p21").length + 1]?
      = some 0x0A ∧
    (encodeMuseCommand (lit "p21") (List.replicate 32 0) 32).2.take ((lit "p21").length + 2)
      = ((lit "p21").length + 1) :: (lit "p21" ++ [0x0A]) :=
  encodeMuseCommand_frame.1 (lit "p21") (List.replicate 32 0) (by decide) (by decide)
    (by decide)

/-- C3: `encodeMuseCommand` returns 0 exactly when the frame length `n + 2` exceeds
`bufSize`, and then writes no byte of the buffer; with capacity 32 a text of 30 characters
gives a 32-byte frame and a text of 31 characters fails. -/
theorem encodeMuseCommand_failure :
    (∀ (cmd buf : List Nat) (bufSize : Int),
      ((encodeMuseCommand cmd buf bufSize).1 = 0 ↔ ((strlen cmd + 2 : Nat) : Int) > bufSize) ∧
      (((strlen cmd + 2 : Nat) : Int) > bufSize → (encodeMuseCommand cmd buf bufSize).2 = buf)) ∧
    (∀ (cmd buf : List Nat), (∀ c ∈ cmd, c ≠ 0) → cmd.length = 30 →
      (encodeMuseCommand cmd buf 32).1 = 32) ∧
    (∀ (cmd buf : List Nat), (∀ c ∈ cmd, c ≠ 0) → cmd.length = 31 →
      (encodeMuseCommand cmd buf 32).1 = 0 ∧ (encodeMuseCommand cmd buf 32).2 = buf) := by
  have main : ∀ (cmd buf : List Nat) (bufSize : Int),
      ((encodeMuseCommand cmd buf bufSize).1 = 0 ↔ ((strlen cmd + 2 : Nat) : Int) > bufSize) ∧
      (((strlen cmd + 2 : Nat) : Int) > bufSize →
        (encodeMuseCommand cmd buf bufSize).2 = buf) := by
    intro cmd buf bufSize
    by_cases h : ((strlen cmd + 1 + 1 : Nat) : Int) > bufSize
    · have e : encodeMuseCommand cmd buf bufSize = (0, buf) := by
        simp only [encodeMuseCommand, h, if_true]
      rw [e]
      exact ⟨⟨fun _ => h, fun _ => rfl⟩, fun _ => rfl⟩
    · have e : (encodeMuseCommand cmd buf bufSize).1 = ((strlen cmd + 1 + 1 : Nat) : Int) := by
        simp only [encodeMuseCommand, h, if_false]
      rw [e]
      refine ⟨⟨fun h0 => ?_, fun h1 => absurd h1 h⟩, fun h1 => absurd h1 h⟩
      omega
  refine ⟨main, ?_, ?_⟩
  · intro cmd buf hc hl
    have hs : strlen cmd = 30 := by rw [strlen_eq_length cmd hc, hl]
    have h : ¬ (((strlen cmd + 1 + 1 : Nat) : Int) > 32) := by omega
    simp only [encodeMuseCommand, h, if_false, hs]
    rfl
  · intro cmd buf hc hl
    have hs : strlen cmd = 31 := by rw [strlen_eq_length cmd hc, hl]
    have h : ((strlen cmd + 2 : Nat) : Int) > 32 := by omega
    exact ⟨(main cmd buf 32).1.mpr h, (main cmd buf 32).2 h⟩

/-- Witness of C3 at texts of 30 and of 31 letters `a`. -/
theorem encodeMuseCommand_failure_witness :
    (encodeMuseCommand (List.replicate 30 97) (List.replicate 32 0) 32).1 = 32 ∧
    (encodeMuseCommand (List.replicate 31 97) (List.replicate 32 0) 32).1 = 0 ∧
    (encodeMuseCommand (List.replicate 31 97) (List.replicate 32 0) 32).2
      = List.replicate 32 0 :=
  ⟨encodeMuseCommand_failure.2.1 (List.replicate 30 97) (List.replicate 32 0) (by decide)
      (by decide),
    encodeMuseCommand_failure.2.2 (List.replicate 31 97) (List.replicate 32 0) (by decide)
      (by decide)⟩

/-! ### Telemetry -/

/-- C4 (the code at the failing inputs): with the transport connected, a telemetry payload of
8 bytes, and one of 9 bytes, passes the guard `len < 8` and `onTelemetryNotify` reads
`data[8]`, respectively `data[9]`, past the end of the payload instead of rejecting it. -/
theorem onTelemetryNotify_short_payload_overread (fmt : Nat → ℚ → List Nat) :
    streamingState.wsConnected = true ∧
    onTelemetryNotify fmt [0, 0, 0, 0x32, 0, 0, 0, 0] streamingState = .error 8 ∧
    onTelemetryNotify fmt [0, 0, 0, 0x32, 0, 0, 0, 0, 0] streamingState = .error 9 ∧
    onTelemetryNotify fmt [0, 0, 0, 0x32, 0, 0, 0] streamingState = .ok streamingState := by
  refine ⟨by decide, rfl, rfl, rfl⟩

theorem toInt16_eq_signed16 (w : Nat) (h : w < 65536) : toInt16 w = signed16 w := by
  unfold toInt16 signed16
  split <;> omega

/-- C5: for a telemetry payload of at least 10 bytes received while the transport is
connected, the battery is the unsigned big-endian value `256 * p[2] + p[3]` and the
temperature is the two's-complement big-endian value of `(p[8], p[9])` divided by 10; the
bytes 0x00, 0x32 and 0x00, 0xC8 give battery 50 and temperature 20.0. -/
theorem onTelemetryNotify_decode (fmt : Nat → ℚ → List Nat)
    (b0 b1 b2 b3 b4 b5 b6 b7 b8 b9 : Nat) (rest : List Nat) (s : State)
    (h2 : b2 < 256) (h3 : b3 < 256) (h8 : b8 < 256) (h9 : b9 < 256)
    (hws : s.wsConnected = true) :
    onTelemetryNotify fmt (b0 :: b1 :: b2 :: b3 :: b4 :: b5 :: b6 :: b7 :: b8 :: b9 :: rest) s
      = .ok (sendJSON (fmt (256 * b2 + b3) ((signed16 (256 * b8 + b9) : ℚ) / 10)) s) ∧
    onTelemetryNotify fmt (b0 :: b1 :: 0x00 :: 0x32 :: b4 :: b5 :: b6 :: b7 :: 0x00 :: 0xC8 :: rest) s
      = .ok (sendJSON (fmt 50 20) s) := by
  have main : ∀ c2 c3 c8 c9 : Nat, c2 < 256 → c3 < 256 → c8 < 256 → c9 < 256 →
      onTelemetryNotify fmt (b0 :: b1 :: c2 :: c3 :: b4 :: b5 :: b6 :: b7 :: c8 :: c9 :: rest) s
      = .ok (sendJSON (fmt (256 * c2 + c3) ((signed16 (256 * c8 + c9) : ℚ) / 10)) s) := by
    intro c2 c3 c8 c9 k2 k3 k8 k9
    have hlen : ¬ ((b0 :: b1 :: c2 :: c3 :: b4 :: b5 :: b6 :: b7 :: c8 :: c9 :: rest).length < 8) := by
      simp only [List.length_cons]
      omega
    have hb : (c2 <<< 8 ||| c3) % 65536 = 256 * c2 + c3 := by
      rw [or_bytes c2 c3 k3]
      omega
    have ht : toInt16 ((c8 <<< 8 ||| c9) % 65536) = signed16 (256 * c8 + c9) := by
      rw [or_bytes c8 c9 k9, toInt16_eq_signed16 _ (Nat.mod_lt _ (by norm_num))]
      congr 1
      omega
    simp only [onTelemetryNotify, hlen, hws, decide_False, Bool.not_true, Bool.or_self,
      Bool.false_eq_true, if_false, readByte, List.getElem?_cons_succ, List.getElem?_cons_zero]
    show Except.ok (sendJSON (fmt ((c2 <<< 8 ||| c3) % 65536)
      ((toInt16 ((c8 <<< 8 ||| c9) % 65536) : ℚ) / 10)) s) = _
    rw [hb, ht]
  refine ⟨main b2 b3 b8 b9 h2 h3 h8 h9, ?_⟩
  rw [main 0x00 0x32 0x00 0xC8 (by norm_num) (by norm_num) (by norm_num) (by norm_num)]
  have e1 : 256 * 0x00 + 0x32 = 50 := by norm_num
  have e2 : ((signed16 (256 * 0x00 + 0xC8) : ℚ) / 10) = 20 := by
    have : signed16 (256 * 0x00 + 0xC8) = 200 := by decide
    rw [this]
    norm_num
  rw [e1, e2]

/-- Witness of C5 at the payload `00 00 00 32 00 00 00 00 00 C8` in the streaming state. -/
theorem onTelemetryNotify_decode_witness :
    onTelemetryNotify fmtCodes [0, 0, 0x00, 0x32, 0, 0, 0, 0, 0x00, 0xC8] streamingState
      = .ok (sendJSON (fmtCodes 50 20) streamingState) :=
  (onTelemetryNotify_decode fmtCodes 0 0 0x00 0x32 0 0 0 0 0x00 0xC8 [] streamingState
    (by decide) (by decide) (by decide) (by decide) (by decide)).2

/-! ### Relay queue -/

theorem sendJSON_wsConnected (j : List Nat) (s : State) :
    (sendJSON j s).wsConnected = s.wsConnected := by
  unfold sendJSON
  split
  · rfl
  · split <;> rfl

theorem sendJSON_queue (j : List Nat) (s : State) (q : Queue) (hws : s.wsConnected = true)
    (hq : s.wsQueue = some q) :
    (sendJSON j s).wsQueue = some (xQueueSend q (mkWsMsg j)) := by
  simp only [sendJSON, hws, hq, Bool.not_true, Bool.false_eq_true, if_false]

theorem sendJSON_fold (js : List (List Nat)) :
    ∀ (s : State) (q : Queue), s.wsConnected = true → s.wsQueue = some q →
      q.items.length ≤ q.capacity →
      (js.foldl (fun s j => sendJSON j s) s).wsQueue
        = some { capacity := q.capacity,
                 items := q.items ++ (js.take (q.capacity - q.items.length)).map mkWsMsg } := by
  induction js with
  | nil =>
    intro s q _ hq _
    simp [hq]
  | cons j js ih =>
    intro s q hws hq hle
    rw [List.foldl_cons]
    have hws2 : (sendJSON j s).wsConnected = true := by rw [sendJSON_wsConnected, hws]
    have hq2 := sendJSON_queue j s q hws hq
    by_cases hfull : q.items.length < q.capacity
    · have hx : xQueueSend q (mkWsMsg j)
          = { capacity := q.capacity, items := q.items ++ [mkWsMsg j] } := by
        simp only [xQueueSend, hfull, if_true]
      rw [hx] at hq2
      rw [ih (sendJSON j s) _ hws2 hq2 (by simp only [List.length_append, List.length_singleton]; omega)]
      obtain ⟨k, hk⟩ : ∃ k, q.capacity - q.items.length = k + 1 :=
        ⟨q.capacity - q.items.length - 1, by omega⟩
      have hk2 : q.capacity - (q.items ++ [mkWsMsg j]).length = k := by
        simp only [List.length_append, List.length_singleton]
        omega
      simp only [hk, hk2, List.take_succ_cons, List.map_cons, List.append_assoc,
        List.singleton_append]
    · have hx : xQueueSend q (mkWsMsg j) = q := by
        simp only [xQueueSend, hfull, if_false]
      rw [hx] at hq2
      rw [ih (sendJSON j s) q hws2 hq2 hle]
      have hz : q.capacity - q.items.length = 0 := by omega
      simp only [hz, List.take_zero]

theorem cstring_append_nul (j rest : List Nat) (h : ∀ c ∈ j, c ≠ 0) :
    cstring (j ++ 0 :: rest) = j := by
  induction j with
  | nil => simp [cstring]
  | cons c cs ih =>
    have hc : c ≠ 0 := h c (List.mem_cons_self c cs)
    have hcs : ∀ x ∈ cs, x ≠ 0 := fun x hx => h x (List.mem_cons_of_mem c hx)
    simp [cstring, hc, ih hcs]

theorem cstring_self (j : List Nat) (h : ∀ c ∈ j, c ≠ 0) : cstring j = j := by
  induction j with
  | nil => rfl
  | cons c cs ih =>
    have hc : c ≠ 0 := h c (List.mem_cons_self c cs)
    have hcs : ∀ x ∈ cs, x ≠ 0 := fun x hx => h x (List.mem_cons_of_mem c hx)
    simp [cstring, hc, ih hcs]

theorem mkWsMsg_text (j : List Nat) (h : ∀ c ∈ j, c ≠ 0) (hl : j.length ≤ 319) :
    cstring (mkWsMsg j).json = j := by
  have ht : (cstring j).take 319 = j := by
    rw [cstring_self j h]
    exact List.take_of_length_le hl
  simp only [mkWsMsg, strncpy, ht, List.append_assoc]
  cases hr : List.replicate (319 - j.length) 0 ++ [0] with
  | nil => simp at hr
  | cons a as =>
    have ha : a = 0 := by
      have hm : a ∈ List.replicate (319 - j.length) 0 ++ [0] := by
        rw [hr]
        exact List.mem_cons_self a as
      rcases List.mem_append.mp hm with h1 | h1
      · exact (List.mem_replicate.mp h1).2
      · exact List.mem_singleton.mp h1
    rw [ha]
    exact cstring_append_nul j as h

/-- C6: sixty-five consecutive `sendJSON` calls on an empty queue of capacity 64, transport
connected and nothing dequeued, leave exactly the first 64 messages in enqueue order;
`sendJSON` on a queue holding 64 messages changes nothing, on a queue holding fewer it
appends the message at the tail. -/
theorem sendJSON_overflow_drops_newest :
    (∀ (js : List (List Nat)) (s : State), js.length = 65 → s.wsConnected = true →
      s.wsQueue = some { capacity := WS_QUEUE_SIZE, items := [] } →
      (js.foldl (fun s j => sendJSON j s) s).wsQueue
        = some { capacity := WS_QUEUE_SIZE, items := (js.take 64).map mkWsMsg } ∧
      ((js.take 64).map mkWsMsg).length = 64) ∧
    (∀ (j : List Nat) (s : State) (q : Queue), s.wsQueue = some q →
      q.capacity = WS_QUEUE_SIZE → q.items.length = 64 → sendJSON j s = s) ∧
    (∀ (j : List Nat) (s : State) (q : Queue), s.wsConnected = true → s.wsQueue = some q →
      q.capacity = WS_QUEUE_SIZE → q.items.length < 64 →
      (sendJSON j s).wsQueue = some { capacity := WS_QUEUE_SIZE, items := q.items ++ [mkWsMsg j] } ∧
      ((∀ c ∈ j, c ≠ 0) → j.length ≤ 319 → cstring (mkWsMsg j).json = j)) := by
  refine ⟨?_, ?_, ?_⟩
  · intro js s hlen hws hq
    have h := sendJSON_fold js s _ hws hq (by simp)
    simp only [List.length_nil, Nat.sub_zero, List.nil_append] at h
    refine ⟨h, ?_⟩
    simp only [List.length_map, List.length_take, hlen]
    rfl
  · intro j s q hq hcap hlen
    unfold sendJSON
    split
    · rfl
    · have hx : xQueueSend q (mkWsMsg j) = q := by
        have : ¬ (q.items.length < q.capacity) := by
          rw [hcap, hlen]
          decide
        simp only [xQueueSend, this, if_false]
      simp only [hq, hx]
      cases s
      simp_all
  · intro j s q hws hq hcap hlen
    refine ⟨?_, mkWsMsg_text j⟩
    rw [sendJSON_queue j s q hws hq]
    have hlt : q.items.length < q.capacity := by
      rw [hcap]
      exact hlen
    rw [xQueueSend, if_pos hlt, hcap]

/-- Witness of C6: sixty-five one-character messages sent in the streaming state. -/
theorem sendJSON_overflow_drops_newest_witness :
    ((List.replicate 65 [65]).foldl (fun s j => sendJSON j s) streamingState).wsQueue
        = some { capacity := WS_QUEUE_SIZE,
                 items := ((List.replicate 65 [65]).take 64).map mkWsMsg } ∧
      (((List.replicate 65 [65]).take 64).map mkWsMsg).length = 64 :=
  sendJSON_overflow_drops_newest.1 (List.replicate 65 [65]) streamingState (by decide)
    (by decide) (by decide)

/-! ### Link state -/

theorem subscribeChar_snd (g : Gatt) (c : Chr) (s : State) :
    (subscribeChar g c s).2 = s.call (.subscribe s.bleClient c (g.sub c)) := by
  unfold subscribeChar
  cases g.sub c <;> rfl

theorem sendMuseCommand_h (g : Gatt) (s : State) :
    sendMuseCommand g (lit "h") s
      = s.call (.writeValue s.bleClient [0x02, 104, 0x0A] (g.writeOk [0x02, 104, 0x0A])) := rfl

theorem sendMuseCommand_p21 (g : Gatt) (s : State) :
    sendMuseCommand g (lit "p21") s
      = s.call (.writeValue s.bleClient [0x04, 112, 50, 49, 0x0A]
          (g.writeOk [0x04, 112, 50, 49, 0x0A])) := rfl

theorem sendMuseCommand_s (g : Gatt) (s : State) :
    sendMuseCommand g (lit "s") s
      = s.call (.writeValue s.bleClient [0x02, 115, 0x0A] (g.writeOk [0x02, 115, 0x0A])) := rfl

theorem startMuseStream_missing (g : Gatt) (s : State) (h : (g.service && g.control) = false) :
    startMuseStream g s = s.call (.getService s.bleClient) := by
  unfold startMuseStream
  cases hs : g.service <;> cases hc : g.control <;> simp_all

theorem startMuseStream_found (g : Gatt) (s : State) (hs : g.service = true)
    (hc : g.control = true) :
    startMuseStream g s
      = { s with museStreaming := true,
                 trace := s.trace ++ .getService s.bleClient :: streamCalls g s.bleClient } := by
  simp only [startMuseStream, hs, hc, Bool.not_true, Bool.false_eq_true, if_false,
    List.range, List.range.loop, List.foldl, subscribeChar_snd, sendMuseCommand_h,
    sendMuseCommand_p21, sendMuseCommand_s, State.call, streamCalls, List.append_assoc,
    List.singleton_append, List.cons_append, List.nil_append]

theorem startMuseStream_bleConnected (g : Gatt) (s : State) :
    (startMuseStream g s).bleConnected = s.bleConnected := by
  cases h : (g.service && g.control)
  · rw [startMuseStream_missing g s h]
    rfl
  · simp only [Bool.and_eq_true] at h
    rw [startMuseStream_found g s h.1 h.2]

theorem startMuseStream_wsConnected (g : Gatt) (s : State) :
    (startMuseStream g s).wsConnected = s.wsConnected := by
  cases h : (g.service && g.control)
  · rw [startMuseStream_missing g s h]
    rfl
  · simp only [Bool.and_eq_true] at h
    rw [startMuseStream_found g s h.1 h.2]

theorem startMuseStream_trace (g : Gatt) (s : State) :
    ∃ new, (startMuseStream g s).trace = s.trace ++ new ∧
      ∀ x ∈ new, x.client = some s.bleClient := by
  cases h : (g.service && g.control)
  · rw [startMuseStream_missing g s h]
    refine ⟨[.getService s.bleClient], rfl, ?_⟩
    intro x hx
    rw [List.mem_singleton.mp hx]
    rfl
  · simp only [Bool.and_eq_true] at h
    rw [startMuseStream_found g s h.1 h.2]
    refine ⟨.getService s.bleClient :: streamCalls g s.bleClient, rfl, ?_⟩
    intro x hx
    simp only [streamCalls, List.mem_cons, List.mem_singleton, List.not_mem_nil, or_false] at hx
    rcases hx with h | h | h | h | h | h | h | h | h | h | h <;> rw [h] <;> rfl

theorem connectMuse_flags (o : ConnectOutcome) (s : State) :
    (connectMuse o s).2.wsConnected = s.wsConnected ∧
    (connectMuse o s).2.museStreaming = s.museStreaming ∧
    ((connectMuse o s).1 = true → (connectMuse o s).2.bleConnected = true) ∧
    ((connectMuse o s).1 = false → (connectMuse o s).2.bleConnected = s.bleConnected) := by
  cases o <;> simp [connectMuse, onConnect, State.call]

theorem connectRetry_flags (os : List ConnectOutcome) :
    ∀ s s1 : State, connectRetry os s = some s1 →
      s1.bleConnected = true ∧ s1.wsConnected = s.wsConnected ∧
      s1.museStreaming = s.museStreaming := by
  induction os with
  | nil =>
    intro s s1 h
    simp [connectRetry] at h
  | cons o os ih =>
    intro s s1 h
    obtain ⟨f1, f2, f3, -⟩ := connectMuse_flags o s
    unfold connectRetry at h
    split at h
    · rename_i hok
      have e : (connectMuse o s).2 = s1 := Option.some.inj h
      rw [← e]
      exact ⟨f3 hok, f1, f2⟩
    · obtain ⟨g1, g2, g3⟩ := ih _ s1 h
      exact ⟨g1, g2.trans f1, g3.trans f2⟩


theorem writes_append (xs ys : List Call) : writes (xs ++ ys) = writes xs ++ writes ys := by
  induction xs with
  | nil => rfl
  | cons x xs ih =>
    cases x <;> simp [writes, ih]

theorem writes_handshake (tr : List Call) (g : Gatt) (c : Nat) :
    writes (tr ++ ([Call.scan] ++ Call.getService c :: streamCalls g c))
      = writes tr ++ [[0x02, 104, 0x0A], [0x04, 112, 50, 49, 0x0A], [0x02, 115, 0x0A]] := by
  rw [writes_append]
  rfl

theorem wsEvent_connected_noop (g : Gatt) (s : State) (h1 : s.museStreaming = true)
    (h2 : s.wsConnected = true) : wsEvent g .CONNECTED s = s := by
  cases s
  simp only at h1 h2
  subst h1 h2
  simp [wsEvent]

/-- C7 as stated fails at the radio-connect trigger of `loop`: in the reachable state
where `museStreaming` is true and `bleConnected` is false, the reconnect completes, the
start condition is false because `museStreaming` is true, and `startMuseStream` is run
all the same. -/
theorem reconnect_starts_with_streaming_set :
    Reachable raceState ∧
    raceState.bleConnected = false ∧ raceState.museStreaming = true ∧
    (connectMuse .connected raceState).1 = true ∧
    startCondition (connectMuse .connected raceState).2 = false ∧
    reconnect .connected gattOk raceState
      = startMuseStream gattOk (connectMuse .connected raceState).2 ∧
    reconnect .connected gattOk raceState ≠ (connectMuse .connected raceState).2 ∧
    writes (reconnect .connected gattOk raceState).trace
      = writes raceState.trace
        ++ [[0x02, 104, 0x0A], [0x04, 112, 50, 49, 0x0A], [0x02, 115, 0x0A]] :=
  ⟨Reachable.step afterSetup raceState (.transport .CONNECTED gattOk (disconnectAt 12))
      (Reachable.step boot afterSetup (.setupStart [.connected] gattOk noLanding)
        Reachable.boot rfl) rfl,
    by decide, by decide, by decide, by decide, by decide, by decide, by decide⟩

/-- C7 (amended): at the transport-connected event the stream start is initiated exactly
when `bleConnected` and `wsConnected` are true and `museStreaming` is false; after a radio
connect completes in `loop` or in `setup` it is initiated exactly when `wsConnected` is
true, `museStreaming` not being consulted (where it is false the two conditions agree);
when the radio-connect trigger has started the stream, a transport-connected event that
follows with both links up takes no action, and the three handshake frames have been
written once in total. -/
theorem start_triggers :
    (∀ (g : Gatt) (s : State),
      wsEvent g .CONNECTED s
        = if startCondition { s with wsConnected := true }
          then startMuseStream g { s with wsConnected := true }
          else { s with wsConnected := true }) ∧
    (∀ (o : ConnectOutcome) (g : Gatt) (s : State),
      s.bleConnected = false → (connectMuse o s).1 = true →
      reconnect o g s
        = (if (connectMuse o s).2.wsConnected then startMuseStream g (connectMuse o s).2
          else (connectMuse o s).2) ∧
      (s.museStreaming = false →
        startCondition (connectMuse o s).2 = (connectMuse o s).2.wsConnected)) ∧
    (∀ (os : List ConnectOutcome) (g : Gatt) (s s1 : State),
      connectRetry os { s with wsQueue := some { capacity := WS_QUEUE_SIZE, items := [] } }
        = some s1 →
      setup os g s = some (if s1.wsConnected then startMuseStream g s1 else s1) ∧
      (s.museStreaming = false → startCondition s1 = s1.wsConnected)) ∧
    (∀ (o : ConnectOutcome) (g g2 : Gatt) (s : State),
      s.bleConnected = false → s.wsConnected = true → (connectMuse o s).1 = true →
      g.service = true → g.control = true →
      (reconnect o g s).museStreaming = true ∧
      wsEvent g2 .CONNECTED (reconnect o g s) = reconnect o g s ∧
      writes (wsEvent g2 .CONNECTED (reconnect o g s)).trace
        = writes s.trace ++ [[0x02, 104, 0x0A], [0x04, 112, 50, 49, 0x0A], [0x02, 115, 0x0A]]) := by
  have trig : ∀ (o : ConnectOutcome) (g : Gatt) (s : State),
      s.bleConnected = false → (connectMuse o s).1 = true →
      reconnect o g s
        = (if (connectMuse o s).2.wsConnected then startMuseStream g (connectMuse o s).2
          else (connectMuse o s).2) := by
    intro o g s hble hok
    simp only [reconnect, hble, hok, Bool.not_false, Bool.true_and, if_true]
  refine ⟨?_, ?_, ?_, ?_⟩
  · intro g s
    simp only [wsEvent, startCondition, Bool.and_true]
  · intro o g s hble hok
    refine ⟨trig o g s hble hok, ?_⟩
    intro hstr
    obtain ⟨-, f2, f3, -⟩ := connectMuse_flags o s
    simp only [startCondition, f3 hok, f2, hstr, Bool.not_false, Bool.true_and, Bool.and_true]
  · intro os g s s1 hretry
    obtain ⟨g1, -, g3⟩ := connectRetry_flags os _ s1 hretry
    refine ⟨?_, ?_⟩
    · simp only [setup, hretry]
    · intro hstr
      have g3b : s1.museStreaming = false := by
        rw [g3]
        exact hstr
      simp only [startCondition, g1, g3b, Bool.not_false, Bool.true_and, Bool.and_true]
  · intro o g g2 s hble hws hok hsvc hctl
    obtain ⟨f1, -, -, -⟩ := connectMuse_flags o s
    have hr : reconnect o g s = startMuseStream g (connectMuse o s).2 := by
      rw [trig o g s hble hok, f1, hws, if_pos rfl]
    have hfound := startMuseStream_found g (connectMuse o s).2 hsvc hctl
    have h1 : (reconnect o g s).museStreaming = true := by
      rw [hr, hfound]
    have h2 : (reconnect o g s).wsConnected = true := by
      rw [hr, startMuseStream_wsConnected, f1, hws]
    have h3 : wsEvent g2 .CONNECTED (reconnect o g s) = reconnect o g s :=
      wsEvent_connected_noop g2 _ h1 h2
    refine ⟨h1, h3, ?_⟩
    rw [h3, hr, hfound]
    have htr : (connectMuse o s).2.trace = s.trace ++ [.scan] := by
      cases o <;> rfl
    simp only [htr, List.append_assoc]
    exact writes_handshake s.trace g _

/-- Witness of the amended C7: after a radio loss in the streaming state, the reconnect of
`loop` restarts the stream and a transport-connected event that follows changes nothing. -/
theorem start_triggers_witness :
    (reconnect .connected gattOk radioLostState).museStreaming = true ∧
    wsEvent gattOk .CONNECTED (reconnect .connected gattOk radioLostState)
      = reconnect .connected gattOk radioLostState ∧
    writes (wsEvent gattOk .CONNECTED (reconnect .connected gattOk radioLostState)).trace
      = writes radioLostState.trace
        ++ [[0x02, 104, 0x0A], [0x04, 112, 50, 49, 0x0A], [0x02, 115, 0x0A]] :=
  start_triggers.2.2.2 .connected gattOk gattOk radioLostState (by decide) (by decide)
    (by decide) rfl rfl

/-- C8 as stated fails: in the streaming state the transport-disconnected event clears
`wsConnected` and leaves `museStreaming` true. -/
theorem wsEvent_disconnected_keeps_streaming :
    streamingState.museStreaming = true ∧
    (wsEvent gattOk .DISCONNECTED streamingState).wsConnected = false ∧
    (wsEvent gattOk .DISCONNECTED streamingState).museStreaming = true ∧
    ¬ ((wsEvent gattOk .DISCONNECTED streamingState).wsConnected = false ∧
       (wsEvent gattOk .DISCONNECTED streamingState).museStreaming = false) := by
  decide

/-- C8 (amended): after the transport-disconnected event `wsConnected` is false, and
`museStreaming`, `bleConnected` and every other variable are as before; a transport-connected
event that follows while the stream is still marked running sends no handshake. -/
theorem wsEvent_disconnected_clears_transport_only (g g2 : Gatt) (s : State) :
    wsEvent g .DISCONNECTED s = { s with wsConnected := false } ∧
    (wsEvent g .DISCONNECTED s).wsConnected = false ∧
    (wsEvent g .DISCONNECTED s).museStreaming = s.museStreaming ∧
    (wsEvent g .DISCONNECTED s).bleConnected = s.bleConnected ∧
    (s.museStreaming = true →
      wsEvent g2 .CONNECTED (wsEvent g .DISCONNECTED s) = { s with wsConnected := true }) := by
  refine ⟨rfl, rfl, rfl, rfl, ?_⟩
  intro h
  cases s
  simp only at h
  subst h
  simp [wsEvent]

/-- Witness of the amended C8 at the streaming state. -/
theorem wsEvent_disconnected_clears_transport_only_witness :
    wsEvent gattOk .CONNECTED (wsEvent gattOk .DISCONNECTED streamingState)
      = { streamingState with wsConnected := true } :=
  (wsEvent_disconnected_clears_transport_only gattOk gattOk streamingState).2.2.2.2 (by decide)

theorem wsEvent_radio_down (g : Gatt) (t : WStype) (s : State) (h : s.bleConnected = false) :
    (wsEvent g t s).bleConnected = false ∧ (wsEvent g t s).trace = s.trace ∧
    (wsEvent g t s).bleClient = s.bleClient := by
  cases t <;> simp [wsEvent, h]

theorem wsEvents_radio_down (evs : List (WStype × Gatt)) :
    ∀ s : State, s.bleConnected = false →
      (evs.foldl (fun s ev => wsEvent ev.2 ev.1 s) s).bleConnected = false ∧
      (evs.foldl (fun s ev => wsEvent ev.2 ev.1 s) s).trace = s.trace ∧
      (evs.foldl (fun s ev => wsEvent ev.2 ev.1 s) s).bleClient = s.bleClient := by
  induction evs with
  | nil =>
    intro s h
    exact ⟨h, rfl, rfl⟩
  | cons ev evs ih =>
    intro s h
    obtain ⟨a1, a2, a3⟩ := wsEvent_radio_down ev.2 ev.1 s h
    obtain ⟨b1, b2, b3⟩ := ih _ a1
    rw [List.foldl_cons]
    exact ⟨b1, b2.trans a2, b3.trans a3⟩

theorem drainLoop_spec (items : List WsMsg) :
    ∀ s : State, (drainLoop items s).bleConnected = s.bleConnected ∧
      (drainLoop items s).museStreaming = s.museStreaming ∧
      (drainLoop items s).wsConnected = s.wsConnected ∧
      (drainLoop items s).bleClient = s.bleClient ∧
      ∃ new, (drainLoop items s).trace = s.trace ++ new ∧ ∀ x ∈ new, x.client = none := by
  induction items with
  | nil =>
    intro s
    exact ⟨rfl, rfl, rfl, rfl, [], (List.append_nil _).symm, by simp⟩
  | cons m rest ih =>
    intro s
    have key : drainLoop (m :: rest) s
        = drainLoop rest (if s.wsConnected = true then
            (s.received rest).call (.sendTXT m.json) else s.received rest) := rfl
    rw [key]
    by_cases hws : s.wsConnected = true
    · rw [if_pos hws]
      obtain ⟨a1, a2, a3, a4, new, a5, a6⟩ := ih ((s.received rest).call (.sendTXT m.json))
      refine ⟨a1, a2, a3, a4, .sendTXT m.json :: new, ?_, ?_⟩
      · rw [a5]
        simp [State.call, State.received]
      · intro x hx
        rcases List.mem_cons.mp hx with h | h
        · rw [h]
          rfl
        · exact a6 x h
    · rw [if_neg hws]
      exact ih (s.received rest)

theorem drainQueue_spec (s : State) :
    (drainQueue s).bleConnected = s.bleConnected ∧
    (drainQueue s).museStreaming = s.museStreaming ∧
    (drainQueue s).wsConnected = s.wsConnected ∧
    (drainQueue s).bleClient = s.bleClient ∧
    ∃ new, (drainQueue s).trace = s.trace ++ new ∧ ∀ x ∈ new, x.client = none := by
  unfold drainQueue
  split
  · exact ⟨rfl, rfl, rfl, rfl, [], (List.append_nil _).symm, by simp⟩
  · exact drainLoop_spec _ s

theorem reconnect_radio_down (o : ConnectOutcome) (g : Gatt) (s : State)
    (h : s.bleConnected = false) :
    ∃ new, (reconnect o g s).trace = s.trace ++ Call.scan :: new ∧
      ∀ x ∈ new, x.client = some (s.bleClient + 1) := by
  cases o
  · refine ⟨[], ?_, by simp⟩
    simp [reconnect, h, connectMuse, State.call]
  · refine ⟨[], ?_, by simp⟩
    simp [reconnect, h, connectMuse, State.call]
  · cases hws : s.wsConnected
    · refine ⟨[], ?_, by simp⟩
      simp [reconnect, h, connectMuse, State.call, onConnect, hws]
    · obtain ⟨new, h1, h2⟩ := startMuseStream_trace g (connectMuse .connected s).2
      refine ⟨new, ?_, h2⟩
      have e : reconnect .connected g s = startMuseStream g (connectMuse .connected s).2 := by
        simp [reconnect, h, connectMuse, State.call, onConnect, hws]
      rw [e, h1]
      simp [connectMuse, State.call, onConnect]

/-- C9: after `ClientCallbacks::onDisconnect`, `bleConnected` and `museStreaming` are false
and `wsConnected` is as before; the next iteration of `loop` takes the reconnect branch (it
scans) and makes no write on the client object that was current at the disconnect. -/
theorem radio_disconnect_stops_streaming (e : LoopEnv) (s : State) :
    (onDisconnect s).bleConnected = false ∧
    (onDisconnect s).museStreaming = false ∧
    (onDisconnect s).wsConnected = s.wsConnected ∧
    ∃ new, (loop e (onDisconnect s)).trace = (onDisconnect s).trace ++ new ∧
      Call.scan ∈ new ∧
      ∀ (bytes : List Nat) (ok : Bool), Call.writeValue s.bleClient bytes ok ∉ new := by
  refine ⟨rfl, rfl, rfl, ?_⟩
  obtain ⟨a1, a2, a3⟩ := wsEvents_radio_down e.wsEvents (onDisconnect s) rfl
  obtain ⟨b1, -, -, b4, sends, b5, b6⟩ :=
    drainQueue_spec (e.wsEvents.foldl (fun s ev => wsEvent ev.2 ev.1 s) (onDisconnect s))
  obtain ⟨new, c1, c2⟩ := reconnect_radio_down e.connect e.gatt _ (b1.trans a1)
  refine ⟨sends ++ Call.scan :: new, ?_, ?_, ?_⟩
  · show (reconnect e.connect e.gatt (drainQueue _)).trace = _
    rw [c1, b5, a2, List.append_assoc]
  · exact List.mem_append_right _ (List.mem_cons_self _ _)
  · intro bytes ok hmem
    rcases List.mem_append.mp hmem with h | h
    · have := b6 _ h
      simp [Call.client] at this
    · rcases List.mem_cons.mp h with h | h
      · cases h
      · have := c2 _ h
        rw [b4, a3] at this
        simp [Call.client, onDisconnect] at this


theorem startMuseStream_museStreaming (g : Gatt) (s : State) :
    (startMuseStream g s).museStreaming = true ∨
      (startMuseStream g s).museStreaming = s.museStreaming := by
  cases h : (g.service && g.control)
  · rw [startMuseStream_missing g s h]
    exact Or.inr rfl
  · simp only [Bool.and_eq_true] at h
    rw [startMuseStream_found g s h.1 h.2]
    exact Or.inl rfl

theorem wsEvent_inv (g : Gatt) (t : WStype) (s : State)
    (h : s.museStreaming = true → s.bleConnected = true) :
    (wsEvent g t s).museStreaming = true → (wsEvent g t s).bleConnected = true := by
  cases t
  · by_cases hc : (s.bleConnected && !s.museStreaming) = true
    · have e : wsEvent g .CONNECTED s = startMuseStream g { s with wsConnected := true } := by
        simp only [wsEvent, hc, if_true]
      intro _
      rw [e, startMuseStream_bleConnected]
      simp only [Bool.and_eq_true] at hc
      exact hc.1
    · have e : wsEvent g .CONNECTED s = { s with wsConnected := true } := by
        simp only [wsEvent, hc, Bool.false_eq_true, if_false]
      rw [e]
      exact h
  · exact h
  · exact h
  · exact h

theorem wsEvents_inv (evs : List (WStype × Gatt)) :
    ∀ s : State, (s.museStreaming = true → s.bleConnected = true) →
      (evs.foldl (fun s ev => wsEvent ev.2 ev.1 s) s).museStreaming = true →
      (evs.foldl (fun s ev => wsEvent ev.2 ev.1 s) s).bleConnected = true := by
  induction evs with
  | nil =>
    intro s h
    exact h
  | cons ev evs ih =>
    intro s h
    rw [List.foldl_cons]
    exact ih _ (wsEvent_inv ev.2 ev.1 s h)

theorem reconnect_inv (o : ConnectOutcome) (g : Gatt) (s : State)
    (h : s.museStreaming = true → s.bleConnected = true) :
    (reconnect o g s).museStreaming = true → (reconnect o g s).bleConnected = true := by
  obtain ⟨f1, f2, f3, f4⟩ := connectMuse_flags o s
  by_cases hb : s.bleConnected = true
  · have e : reconnect o g s = s := by
      simp only [reconnect, hb, Bool.not_true, Bool.false_eq_true, if_false]
    rw [e]
    exact h
  · have hb2 : s.bleConnected = false := by
      cases hx : s.bleConnected
      · rfl
      · exact absurd hx hb
    by_cases hok : (connectMuse o s).1 = true
    · by_cases hws : (connectMuse o s).2.wsConnected = true
      · have e : reconnect o g s = startMuseStream g (connectMuse o s).2 := by
          simp only [reconnect, hb2, hok, hws, Bool.not_false, Bool.and_self, if_true]
        intro _
        rw [e, startMuseStream_bleConnected]
        exact f3 hok
      · have e : reconnect o g s = (connectMuse o s).2 := by
          simp only [reconnect, hb2, hok, hws, Bool.not_false, Bool.true_and, if_true,
            Bool.false_eq_true, if_false]
        intro _
        rw [e]
        exact f3 hok
    · have hok2 : (connectMuse o s).1 = false := by
        cases hx : (connectMuse o s).1
        · rfl
        · exact absurd hx hok
      have e : reconnect o g s = (connectMuse o s).2 := by
        simp only [reconnect, hb2, hok2, Bool.not_false, Bool.false_and, Bool.false_eq_true,
          if_true, if_false]
      rw [e, f2, f4 hok2]
      exact h

theorem setup_radio_up (os : List ConnectOutcome) (g : Gatt) (s s1 : State)
    (h : setup os g s = some s1) : s1.bleConnected = true := by
  unfold setup at h
  split at h
  · exact absurd h (by simp)
  · rename_i s2 hs2
    obtain ⟨g1, -, -⟩ := connectRetry_flags os _ s2 hs2
    have e := Option.some.inj h
    rw [← e]
    split
    · rw [startMuseStream_bleConnected]
      exact g1
    · exact g1

theorem startMuseStreamRace_noLanding (g : Gatt) (s : State) :
    startMuseStreamRace g noLanding s = startMuseStream g s := by
  cases hs : g.service
  · rw [startMuseStream_missing g s (by simp [hs])]
    simp [startMuseStreamRace, startRun, startStatement, noLanding, hs]
  · cases hc : g.control
    · rw [startMuseStream_missing g s (by simp [hc])]
      simp [startMuseStreamRace, startRun, startStatement, noLanding, hs, hc]
    · rw [startMuseStream_found g s hs hc]
      simp [startMuseStreamRace, startRun, startStatement, noLanding, hs, hc,
        subscribeChar_snd, sendMuseCommand_h, sendMuseCommand_p21, sendMuseCommand_s,
        State.call, streamCalls]

theorem wsEventRace_noLanding (g : Gatt) (t : WStype) (s : State) :
    wsEventRace g noLanding t s = wsEvent g t s := by
  cases t <;> simp [wsEventRace, wsEvent, startMuseStreamRace_noLanding]

theorem reconnectRace_noLanding (o : ConnectOutcome) (g : Gatt) (s : State) :
    reconnectRace o g noLanding s = reconnect o g s := by
  simp [reconnectRace, reconnect, startMuseStreamRace_noLanding]

theorem setupRace_noLanding (os : List ConnectOutcome) (g : Gatt) (s : State) :
    setupRace os g noLanding s = setup os g s := by
  simp [setupRace, setup, startMuseStreamRace_noLanding]

theorem wsEventsRace_noLanding (evs : List (WStype × Gatt × Landing))
    (h : ∀ ev ∈ evs, ev.2.2 = noLanding) :
    ∀ s : State, evs.foldl (fun s ev => wsEventRace ev.2.1 ev.2.2 ev.1 s) s
      = (evs.map (fun ev => (ev.1, ev.2.1))).foldl (fun s ev => wsEvent ev.2 ev.1 s) s := by
  induction evs with
  | nil =>
    intro s
    rfl
  | cons ev evs ih =>
    intro s
    have h1 : ev.2.2 = noLanding := h ev (List.mem_cons_self ev evs)
    have h2 : ∀ x ∈ evs, x.2.2 = noLanding := fun x hx => h x (List.mem_cons_of_mem ev hx)
    simp only [List.foldl_cons, List.map_cons, h1, wsEventRace_noLanding]
    exact ih h2 _

theorem loopRace_noLanding (e : LoopRaceEnv) (hl : e.land = noLanding)
    (hw : ∀ ev ∈ e.wsEvents, ev.2.2 = noLanding) (s : State) :
    loopRace e s = loop e.forget s := by
  simp only [loopRace, loop, LoopRaceEnv.forget, hl, reconnectRace_noLanding,
    wsEventsRace_noLanding e.wsEvents hw]

theorem step_without_landing_keeps_invariant (s s1 : State)
    (h : s.museStreaming = true → s.bleConnected = true) :
    (step .radioConnect s = some s1 → s1.museStreaming = true → s1.bleConnected = true) ∧
    (step .radioDisconnect s = some s1 → s1.museStreaming = true → s1.bleConnected = true) ∧
    (∀ t g, step (.transport t g noLanding) s = some s1 →
      s1.museStreaming = true → s1.bleConnected = true) ∧
    (∀ os g, step (.setupStart os g noLanding) s = some s1 →
      s1.museStreaming = true → s1.bleConnected = true) ∧
    (∀ e : LoopRaceEnv, e.land = noLanding → (∀ ev ∈ e.wsEvents, ev.2.2 = noLanding) →
      step (.loopTick e) s = some s1 → s1.museStreaming = true → s1.bleConnected = true) := by
  refine ⟨?_, ?_, ?_, ?_, ?_⟩
  · intro hstep _
    rw [← Option.some.inj hstep]
    rfl
  · intro hstep hf
    rw [← Option.some.inj hstep] at hf
    exact absurd hf (by simp [onDisconnect])
  · intro t g hstep
    have e : s1 = wsEvent g t s := by
      rw [← Option.some.inj hstep, wsEventRace_noLanding]
    rw [e]
    exact wsEvent_inv g t s h
  · intro os g hstep _
    have e : setup os g s = some s1 := by
      rw [← setupRace_noLanding]
      exact hstep
    exact setup_radio_up os g s s1 e
  · intro e hl hw hstep
    have e1 : s1 = loop e.forget s := by
      rw [← Option.some.inj hstep, ← loopRace_noLanding e hl hw]
    rw [e1]
    show (reconnect e.forget.connect e.forget.gatt (drainQueue _)).museStreaming = true →
      (reconnect e.forget.connect e.forget.gatt (drainQueue _)).bleConnected = true
    apply reconnect_inv
    obtain ⟨b1, b2, -, -, -⟩ := drainQueue_spec
      (e.forget.wsEvents.foldl (fun s ev => wsEvent ev.2 ev.1 s) s)
    rw [b1, b2]
    exact wsEvents_inv _ s h

/-- C10 (the code on the failing run): the state after `setup`, a transport-connected event
and an `onDisconnect` that lands inside the run of `startMuseStream`, before the assignment
`museStreaming = true`, is reachable, and in it `museStreaming` is true while
`bleConnected` is false. -/
theorem disconnect_inside_start_leaves_streaming :
    Reachable raceState ∧ raceState.museStreaming = true ∧ raceState.bleConnected = false ∧
    writes raceState.trace = [[0x02, 104, 0x0A], [0x04, 112, 50, 49, 0x0A], [0x02, 115, 0x0A]] :=
  ⟨Reachable.step afterSetup raceState (.transport .CONNECTED gattOk (disconnectAt 12))
      (Reachable.step boot afterSetup (.setupStart [.connected] gattOk noLanding)
        Reachable.boot rfl) rfl,
    by decide, by decide, by decide⟩

/-! ### Handshake and subscriptions -/

theorem writeResults_append (xs ys : List Call) :
    writeResults (xs ++ ys) = writeResults xs ++ writeResults ys := by
  induction xs with
  | nil => rfl
  | cons x xs ih =>
    cases x <;> simp [writeResults, ih]

theorem subscriptions_append (xs ys : List Call) :
    subscriptions (xs ++ ys) = subscriptions xs ++ subscriptions ys := by
  induction xs with
  | nil => rfl
  | cons x xs ih =>
    cases x <;> simp [subscriptions, ih]

/-- C11 as stated fails: on a peripheral where every write fails, `startMuseStream` run in
the state after `setup` issues the three writes, all of them failing, and sets
`museStreaming` to true. -/
theorem startMuseStream_streams_after_failed_writes :
    afterSetup.museStreaming = false ∧
    writeResults (startMuseStream gattWritesFail afterSetup).trace = [false, false, false] ∧
    (startMuseStream gattWritesFail afterSetup).museStreaming = true := by
  decide

/-- C11 (amended): `startMuseStream` sets `museStreaming` to true exactly when it finds the
service and the control characteristic, after issuing the three handshake writes and
whatever their results; when either is missing it issues no write and leaves
`museStreaming` as it was. -/
theorem startMuseStream_sets_streaming (g : Gatt) (s : State) :
    (g.service = true → g.control = true →
      (startMuseStream g s).museStreaming = true ∧
      ∃ new, (startMuseStream g s).trace = s.trace ++ new ∧
        writes new = [[0x02, 104, 0x0A], [0x04, 112, 50, 49, 0x0A], [0x02, 115, 0x0A]] ∧
        writeResults new = [g.writeOk [0x02, 104, 0x0A], g.writeOk [0x04, 112, 50, 49, 0x0A],
          g.writeOk [0x02, 115, 0x0A]]) ∧
    ((g.service && g.control) = false →
      (startMuseStream g s).museStreaming = s.museStreaming ∧
      ∃ new, (startMuseStream g s).trace = s.trace ++ new ∧ writes new = []) := by
  constructor
  · intro hs hc
    rw [startMuseStream_found g s hs hc]
    exact ⟨rfl, _, rfl, rfl, rfl⟩
  · intro h
    rw [startMuseStream_missing g s h]
    exact ⟨rfl, _, rfl, rfl⟩

/-- Witness of the amended C11 on the peripheral where every write fails. -/
theorem startMuseStream_sets_streaming_witness :
    (startMuseStream gattWritesFail afterSetup).museStreaming = true ∧
      ∃ new, (startMuseStream gattWritesFail afterSetup).trace = afterSetup.trace ++ new ∧
        writes new = [[0x02, 104, 0x0A], [0x04, 112, 50, 49, 0x0A], [0x02, 115, 0x0A]] ∧
        writeResults new = [gattWritesFail.writeOk [0x02, 104, 0x0A],
          gattWritesFail.writeOk [0x04, 112, 50, 49, 0x0A],
          gattWritesFail.writeOk [0x02, 115, 0x0A]] :=
  (startMuseStream_sets_streaming gattWritesFail afterSetup).1 rfl rfl

/-- C12: whenever `startMuseStream` finds the service and the control characteristic, the
byte strings it writes to the control channel are `[0x02,'h',0x0A]`, then
`[0x04,'p','2','1',0x0A]`, then `[0x02,'s',0x0A]`, in that order and no other. -/
theorem startMuseStream_wire_frames (g : Gatt) (s : State) (hs : g.service = true)
    (hc : g.control = true) :
    ∃ new, (startMuseStream g s).trace = s.trace ++ new ∧
      writes new = [[0x02, ('h').toNat, 0x0A], [0x04, ('p').toNat, ('2').toNat, ('1').toNat, 0x0A],
        [0x02, ('s').toNat, 0x0A]] ∧
      ∀ x ∈ new, ∀ (c : Nat) (bytes : List Nat) (ok : Bool), x = Call.writeValue c bytes ok →
        c = s.bleClient := by
  rw [startMuseStream_found g s hs hc]
  refine ⟨_, rfl, rfl, ?_⟩
  intro x hx c bytes ok hxe
  have hcl : x.client = some s.bleClient := by
    simp only [streamCalls, List.mem_cons, List.mem_singleton, List.not_mem_nil, or_false] at hx
    rcases hx with h | h | h | h | h | h | h | h | h | h | h <;> rw [h] <;> rfl
  rw [hxe] at hcl
  exact Option.some.inj hcl

/-- Witness of C12 in the state after `setup`. -/
theorem startMuseStream_wire_frames_witness :
    ∃ new, (startMuseStream gattOk afterSetup).trace = afterSetup.trace ++ new ∧
      writes new = [[0x02, ('h').toNat, 0x0A], [0x04, ('p').toNat, ('2').toNat, ('1').toNat, 0x0A],
        [0x02, ('s').toNat, 0x0A]] ∧
      ∀ x ∈ new, ∀ (c : Nat) (bytes : List Nat) (ok : Bool), x = Call.writeValue c bytes ok →
        c = afterSetup.bleClient :=
  startMuseStream_wire_frames gattOk afterSetup rfl rfl

/-- C17: whenever `startMuseStream` finds the service and the control characteristic, then
for every outcome of every subscription it attempts the seven subscriptions in the order
EEG 0, 1, 2, 3, accelerometer, gyroscope, telemetry, and after them writes the three
handshake frames. -/
theorem startMuseStream_subscribes_all (g : Gatt) (s : State) (hs : g.service = true)
    (hc : g.control = true) :
    (startMuseStream g s).trace
      = s.trace ++ [Call.getService s.bleClient]
        ++ ([Chr.eeg 0, Chr.eeg 1, Chr.eeg 2, Chr.eeg 3, Chr.accel, Chr.gyro, Chr.telemetry].map
            (fun c => Call.subscribe s.bleClient c (g.sub c)))
        ++ ([[0x02, 104, 0x0A], [0x04, 112, 50, 49, 0x0A], [0x02, 115, 0x0A]].map
            (fun bytes => Call.writeValue s.bleClient bytes (g.writeOk bytes))) ∧
    subscriptions (startMuseStream g s).trace
      = subscriptions s.trace
        ++ [Chr.eeg 0, Chr.eeg 1, Chr.eeg 2, Chr.eeg 3, Chr.accel, Chr.gyro, Chr.telemetry].map
            (fun c => (c, g.sub c)) := by
  rw [startMuseStream_found g s hs hc]
  refine ⟨?_, ?_⟩
  · simp only [streamCalls, List.map, List.append_assoc, List.singleton_append,
      List.cons_append, List.nil_append]
  · simp only [subscriptions_append]
    rfl

/-- Witness of C17 in the state after `setup`, on a peripheral where one characteristic is
missing and one subscription fails. -/
theorem startMuseStream_subscribes_all_witness :
    subscriptions (startMuseStream gattPartial afterSetup).trace
      = subscriptions afterSetup.trace
        ++ [Chr.eeg 0, Chr.eeg 1, Chr.eeg 2, Chr.eeg 3, Chr.accel, Chr.gyro, Chr.telemetry].map
            (fun c => (c, gattPartial.sub c)) :=
  (startMuseStream_subscribes_all gattPartial afterSetup rfl rfl).2

/-! ### Motion notifications -/

/-- C13: an accelerometer or gyroscope payload shorter than 8 bytes is dropped: the handler
returns with the state, and so the queue and the three link flags, unchanged. -/
theorem motion_short_payload_dropped (fmt : ℚ → ℚ → ℚ → List Nat) (data : List Nat)
    (s : State) (h : data.length < 8) :
    onAccelNotify fmt data s = .ok s ∧ onGyroNotify fmt data s = .ok s := by
  simp [onAccelNotify, onGyroNotify, h]

/-- Witness of C13 at a 7-byte payload in the streaming state. -/
theorem motion_short_payload_dropped_witness :
    onAccelNotify fmtFloors [0, 0, 0x40, 0, 0xC0, 0, 0x7F] streamingState
        = .ok streamingState ∧
      onGyroNotify fmtFloors [0, 0, 0x40, 0, 0xC0, 0, 0x7F] streamingState
        = .ok streamingState :=
  motion_short_payload_dropped fmtFloors [0, 0, 0x40, 0, 0xC0, 0, 0x7F] streamingState
    (by decide)

theorem signed16_range (w : Nat) (h : w < 65536) :
    -32768 ≤ signed16 w ∧ signed16 w ≤ 32767 := by
  unfold signed16
  split <;> omega

theorem be16_signed (hi lo : Nat) (hhi : hi < 256) (hlo : lo < 256) :
    toInt16 ((hi <<< 8 ||| lo) % 65536) = signed16 (256 * hi + lo) := by
  rw [or_bytes hi lo hlo, toInt16_eq_signed16 _ (Nat.mod_lt _ (by norm_num))]
  congr 1
  omega

/-- C14: for a payload of at least 8 bytes the motion handlers skip bytes 0 and 1 and take
`x`, `y`, `z` as the two's-complement big-endian 16-bit values of `(p[2], p[3])`,
`(p[4], p[5])`, `(p[6], p[7])`, each in `-32768..32767`; the accelerometer handler scales
them by `1 / 16384`, so each component lies in `[-2, 2)`, and the gyroscope handler by
`1 / 16.4`, whatever the payload holds. -/
theorem motion_decode (fmtA fmtG : ℚ → ℚ → ℚ → List Nat)
    (b0 b1 b2 b3 b4 b5 b6 b7 : Nat) (rest : List Nat) (s : State)
    (h2 : b2 < 256) (h3 : b3 < 256) (h4 : b4 < 256) (h5 : b5 < 256) (h6 : b6 < 256)
    (h7 : b7 < 256) (hws : s.wsConnected = true) :
    onAccelNotify fmtA (b0 :: b1 :: b2 :: b3 :: b4 :: b5 :: b6 :: b7 :: rest) s
      = .ok (sendJSON (fmtA ((signed16 (256 * b2 + b3) : ℚ) / 16384)
          ((signed16 (256 * b4 + b5) : ℚ) / 16384)
          ((signed16 (256 * b6 + b7) : ℚ) / 16384)) s) ∧
    onGyroNotify fmtG (b0 :: b1 :: b2 :: b3 :: b4 :: b5 :: b6 :: b7 :: rest) s
      = .ok (sendJSON (fmtG ((signed16 (256 * b2 + b3) : ℚ) / 16.4)
          ((signed16 (256 * b4 + b5) : ℚ) / 16.4)
          ((signed16 (256 * b6 + b7) : ℚ) / 16.4)) s) ∧
    (-32768 ≤ signed16 (256 * b2 + b3) ∧ signed16 (256 * b2 + b3) ≤ 32767) ∧
    (-32768 ≤ signed16 (256 * b4 + b5) ∧ signed16 (256 * b4 + b5) ≤ 32767) ∧
    (-32768 ≤ signed16 (256 * b6 + b7) ∧ signed16 (256 * b6 + b7) ≤ 32767) ∧
    (-2 ≤ (signed16 (256 * b2 + b3) : ℚ) / 16384 ∧ (signed16 (256 * b2 + b3) : ℚ) / 16384 < 2) ∧
    (-2 ≤ (signed16 (256 * b4 + b5) : ℚ) / 16384 ∧ (signed16 (256 * b4 + b5) : ℚ) / 16384 < 2) ∧
    (-2 ≤ (signed16 (256 * b6 + b7) : ℚ) / 16384 ∧ (signed16 (256 * b6 + b7) : ℚ) / 16384 < 2) := by
  have hlen : ¬ ((b0 :: b1 :: b2 :: b3 :: b4 :: b5 :: b6 :: b7 :: rest).length < 8) := by
    simp only [List.length_cons]
    omega
  have ex := be16_signed b2 b3 h2 h3
  have ey := be16_signed b4 b5 h4 h5
  have ez := be16_signed b6 b7 h6 h7
  have rx := signed16_range (256 * b2 + b3) (by omega)
  have ry := signed16_range (256 * b4 + b5) (by omega)
  have rz := signed16_range (256 * b6 + b7) (by omega)
  have bound : ∀ v : Int, -32768 ≤ v → v ≤ 32767 →
      -2 ≤ (v : ℚ) / 16384 ∧ (v : ℚ) / 16384 < 2 := by
    intro v hlo hhi
    have h1 : (-32768 : ℚ) ≤ (v : ℚ) := by exact_mod_cast hlo
    have h2 : (v : ℚ) ≤ 32767 := by exact_mod_cast hhi
    constructor
    · rw [le_div_iff₀ (by norm_num)]
      linarith
    · rw [div_lt_iff₀ (by norm_num)]
      linarith
  refine ⟨?_, ?_, rx, ry, rz, bound _ rx.1 rx.2, bound _ ry.1 ry.2, bound _ rz.1 rz.2⟩
  · simp only [onAccelNotify, hlen, hws, decide_False, Bool.not_true, Bool.or_self,
      Bool.false_eq_true, if_false, readByte, List.getElem?_cons_succ, List.getElem?_cons_zero]
    show Except.ok (sendJSON (fmtA
      ((toInt16 ((b2 <<< 8 ||| b3) % 65536) : ℚ) * (1 / 16384))
      ((toInt16 ((b4 <<< 8 ||| b5) % 65536) : ℚ) * (1 / 16384))
      ((toInt16 ((b6 <<< 8 ||| b7) % 65536) : ℚ) * (1 / 16384))) s) = _
    rw [ex, ey, ez]
    simp only [mul_one_div]
  · simp only [onGyroNotify, hlen, hws, decide_False, Bool.not_true, Bool.or_self,
      Bool.false_eq_true, if_false, readByte, List.getElem?_cons_succ, List.getElem?_cons_zero]
    show Except.ok (sendJSON (fmtG
      ((toInt16 ((b2 <<< 8 ||| b3) % 65536) : ℚ) * (1 / 16.4))
      ((toInt16 ((b4 <<< 8 ||| b5) % 65536) : ℚ) * (1 / 16.4))
      ((toInt16 ((b6 <<< 8 ||| b7) % 65536) : ℚ) * (1 / 16.4))) s) = _
    rw [ex, ey, ez]
    simp only [mul_one_div]

/-- Witness of C14 at the payload `00 00 40 00 C0 00 7F FF` in the streaming state:
one g, minus one g, and the largest value. -/
theorem motion_decode_witness :
    onAccelNotify fmtFloors [0, 0, 0x40, 0x00, 0xC0, 0x00, 0x7F, 0xFF] streamingState
      = .ok (sendJSON (fmtFloors
          ((signed16 (256 * 0x40 + 0x00) : ℚ) / 16384)
          ((signed16 (256 * 0xC0 + 0x00) : ℚ) / 16384)
          ((signed16 (256 * 0x7F + 0xFF) : ℚ) / 16384)) streamingState) :=
  (motion_decode fmtFloors fmtFloors 0 0 0x40 0x00 0xC0 0x00 0x7F 0xFF []
    streamingState (by decide) (by decide) (by decide) (by decide) (by decide) (by decide)
    (by decide)).1

/-! ### Reads of the decoder -/

theorem readByte_ok (data : List Nat) (k : Nat) (h : k < data.length) :
    readByte data k = .ok data[k] := by
  simp only [readByte, List.getElem?_eq_getElem h]

theorem readByte_error (data : List Nat) (k : Nat) (h : data.length ≤ k) :
    readByte data k = .error k := by
  simp only [readByte, List.getElem?_eq_none h]

theorem decodeRaw_ok_iff (data : List Nat) (i : Nat) :
    (∃ r, decodeRaw data i = .ok r) ↔ ∀ k ∈ decodeReads i, k < data.length := by
  by_cases hs : i * 12 % 8 ≤ 4
  · simp only [decodeRaw, decodeReads, hs, if_true, List.mem_cons, List.mem_singleton,
      List.not_mem_nil, or_false, forall_eq_or_imp, forall_eq]
    by_cases h0 : i * 12 / 8 < data.length
    · by_cases h1 : i * 12 / 8 + 1 < data.length
      · rw [readByte_ok data _ h0, readByte_ok data _ h1]
        exact ⟨fun _ => ⟨h0, h1⟩, fun _ => ⟨_, rfl⟩⟩
      · rw [readByte_ok data _ h0, readByte_error data _ (by omega)]
        constructor
        · rintro ⟨r, hr⟩
          cases hr
        · intro h
          exact absurd h.2 h1
    · rw [readByte_error data _ (by omega)]
      constructor
      · rintro ⟨r, hr⟩
        cases hr
      · intro h
        exact absurd h.1 h0
  · simp only [decodeRaw, decodeReads, hs, if_false, List.mem_cons, List.mem_singleton,
      List.not_mem_nil, or_false, forall_eq_or_imp, forall_eq]
    by_cases h0 : i * 12 / 8 < data.length
    · by_cases h1 : i * 12 / 8 + 1 < data.length
      · by_cases h2 : i * 12 / 8 + 2 < data.length
        · rw [readByte_ok data _ h0, readByte_ok data _ h1, readByte_ok data _ h2]
          exact ⟨fun _ => ⟨h0, h1, h2⟩, fun _ => ⟨_, rfl⟩⟩
        · rw [readByte_ok data _ h0, readByte_ok data _ h1, readByte_error data _ (by omega)]
          constructor
          · rintro ⟨r, hr⟩
            cases hr
          · intro h
            exact absurd h.2.2 h2
      · rw [readByte_ok data _ h0, readByte_error data _ (by omega)]
        constructor
        · rintro ⟨r, hr⟩
          cases hr
        · intro h
          exact absurd h.2.1 h1
    · rw [readByte_error data _ (by omega)]
      constructor
      · rintro ⟨r, hr⟩
        cases hr
      · intro h
        exact absurd h.1 h0

theorem decodeReads_le (i : Nat) (hi : i < 12) : ∀ k ∈ decodeReads i, k ≤ 17 := by
  interval_cases i <;> decide

theorem decodeLoop_total (data : List Nat) (hlen : data.length = 18) :
    ∀ (n i : Nat) (out : List ℚ), i + n ≤ 12 →
      ∃ res, decodeLoop data n i out = .ok res ∧ res.length = out.length + n := by
  intro n
  induction n with
  | zero =>
    intro i out _
    exact ⟨out, rfl, rfl⟩
  | succ n ih =>
    intro i out hin
    have hr : ∀ k ∈ decodeReads i, k < data.length := by
      intro k hk
      have := decodeReads_le i (by omega) k hk
      omega
    obtain ⟨r, hr2⟩ := (decodeRaw_ok_iff data i).mpr hr
    obtain ⟨res, h1, h2⟩ := ih (i + 1) (out ++ [scaleRaw r]) (by omega)
    refine ⟨res, ?_, ?_⟩
    · simp only [decodeLoop, hr2, bind_ok]
      exact h1
    · rw [h2, List.length_append, List.length_singleton]
      omega

/-- C15: on every 18-byte payload `decodeEegSamples` produces exactly 12 values, and every
byte index it reads lies in `0..17`; the last sample, `i = 11`, reads bytes 16 and 17
only. -/
theorem decodeEegSamples_total (data : List Nat) (hlen : data.length = 18) :
    (∃ out, decodeEegSamples data = .ok out ∧ out.length = 12) ∧
    (∀ i, i < 12 → ∀ k ∈ decodeReads i, k ≤ 17) ∧
    decodeReads 11 = [16, 17] ∧
    (∀ i, (∃ r, decodeRaw data i = .ok r) ↔ ∀ k ∈ decodeReads i, k < data.length) := by
  refine ⟨?_, decodeReads_le, by decide, decodeRaw_ok_iff data⟩
  obtain ⟨res, h1, h2⟩ := decodeLoop_total data hlen 12 0 [] (by omega)
  exact ⟨res, h1, by simpa using h2⟩

/-- Witness of C15 at the payload of eighteen bytes `0xFF`. -/
theorem decodeEegSamples_total_witness :
    ∃ out, decodeEegSamples (List.replicate 18 0xFF) = .ok out ∧ out.length = 12 :=
  (decodeEegSamples_total (List.replicate 18 0xFF) (by decide)).1

theorem shift_mod_eight (i : Nat) : i * 12 % 8 = 0 ∨ i * 12 % 8 = 4 := by omega

theorem decodeRaw_eq_twoByte (data : List Nat) (i : Nat) :
    decodeRaw data i = decodeRawTwoByte data i := by
  have hs : i * 12 % 8 ≤ 4 := by omega
  simp only [decodeRaw, decodeRawTwoByte, hs, if_true]

theorem decodeLoop_eq_twoByte (data : List Nat) :
    ∀ (n i : Nat) (out : List ℚ), decodeLoop data n i out = decodeLoopTwoByte data n i out := by
  intro n
  induction n with
  | zero =>
    intro i out
    rfl
  | succ n ih =>
    intro i out
    simp only [decodeLoop, decodeLoopTwoByte, decodeRaw_eq_twoByte, ih]

/-- C19: for every sample index the in-byte bit offset `(12 * i) mod 8` is 0 or 4, so
`bitShift <= 4` always holds, each sample is read from the two bytes at `12 * i / 8` and
`12 * i / 8 + 1`, and `decodeEegSamples` equals the decoder with the three-byte branch
deleted. -/
theorem three_byte_branch_unreachable :
    (∀ i : Nat, i * 12 % 8 = 0 ∨ i * 12 % 8 = 4) ∧
    (∀ i : Nat, i * 12 % 8 ≤ 4) ∧
    (∀ i : Nat, decodeReads i = [i * 12 / 8, i * 12 / 8 + 1]) ∧
    (∀ (data : List Nat) (i : Nat), decodeRaw data i = decodeRawTwoByte data i) ∧
    (∀ data : List Nat, decodeEegSamples data = decodeEegSamplesTwoByte data) := by
  refine ⟨shift_mod_eight, fun i => by omega, ?_, decodeRaw_eq_twoByte, ?_⟩
  · intro i
    have hs : i * 12 % 8 ≤ 4 := by omega
    simp only [decodeReads, hs, if_true]
  · intro data
    exact decodeLoop_eq_twoByte data _ _ _

/-! ### Transport pump -/

theorem drainLoop_eq (items : List WsMsg) :
    ∀ (s : State) (cap : Nat), s.wsQueue = some { capacity := cap, items := items } →
      drainLoop items s
        = { s with wsQueue := some { capacity := cap, items := [] },
                   trace := s.trace ++ if s.wsConnected = true
                     then items.map (fun m => Call.sendTXT m.json) else [] } := by
  induction items with
  | nil =>
    intro s cap h
    cases s
    simp only at h
    subst h
    simp [drainLoop]
  | cons m rest ih =>
    intro s cap h
    have key : drainLoop (m :: rest) s
        = drainLoop rest (if s.wsConnected = true then
            (s.received rest).call (.sendTXT m.json) else s.received rest) := rfl
    rw [key]
    by_cases hws : s.wsConnected = true
    · rw [if_pos hws, ih ((s.received rest).call (.sendTXT m.json)) cap
        (by simp [State.call, State.received, h])]
      simp [State.call, State.received, hws]
    · rw [if_neg hws, ih (s.received rest) cap (by simp [State.received, h])]
      simp [State.received, hws]

theorem drainFuel_succ_some (k : Nat) (s s1 : State) (h : drainStep s = some s1) :
    drainFuel (k + 1) s = drainFuel k s1 := by
  simp only [drainFuel, h]

theorem drainFuel_spec (items : List WsMsg) :
    ∀ (s : State) (cap : Nat), s.wsQueue = some { capacity := cap, items := items } →
      drainFuel (items.length + 1) s = some (drainLoop items s) ∧
      ∀ k, k ≤ items.length → drainFuel k s = none := by
  induction items with
  | nil =>
    intro s cap h
    have hstep : drainStep s = none := by simp [drainStep, h]
    refine ⟨by simp [drainFuel, hstep, drainLoop], ?_⟩
    intro k hk
    have hk0 : k = 0 := by simpa using hk
    rw [hk0]
    rfl
  | cons m rest ih =>
    intro s cap h
    have hstep : drainStep s = some (if s.wsConnected = true then
        (s.received rest).call (.sendTXT m.json) else s.received rest) := by
      simp [drainStep, h]
    have hq : (if s.wsConnected = true then
        (s.received rest).call (.sendTXT m.json) else s.received rest).wsQueue
          = some { capacity := cap, items := rest } := by
      split <;> simp [State.call, State.received, h]
    obtain ⟨a1, a2⟩ := ih _ cap hq
    refine ⟨?_, ?_⟩
    · show drainFuel (rest.length + 1 + 1) s = _
      rw [drainFuel_succ_some _ s _ hstep, a1]
      rfl
    · intro k hk
      cases k with
      | zero => rfl
      | succ k =>
        rw [drainFuel_succ_some k s _ hstep]
        exact a2 k (by simpa using hk)

/-- C16: with no enqueue in between, the drain loop on a queue holding `n <= 64` messages
exits after exactly `n` successful dequeues (the call `n + 1` of `xQueueReceive` finds the
queue empty, and no fewer calls reach the exit) and leaves the queue empty; with the
transport connected it sends exactly those messages in enqueue order, with the transport
down it sends none and still discards them all. -/
theorem drain_sends_fifo (s : State) (q : Queue) (hq : s.wsQueue = some q)
    (_hn : q.items.length ≤ 64) :
    drainFuel (q.items.length + 1) s = some (drainQueue s) ∧
    (∀ k, k ≤ q.items.length → drainFuel k s = none) ∧
    (drainQueue s).wsQueue = some { capacity := q.capacity, items := [] } ∧
    (s.wsConnected = true →
      (drainQueue s).trace = s.trace ++ q.items.map (fun m => Call.sendTXT m.json)) ∧
    (s.wsConnected = false → (drainQueue s).trace = s.trace) := by
  have hq2 : s.wsQueue = some { capacity := q.capacity, items := q.items } := hq
  have e : drainQueue s = drainLoop q.items s := by
    simp only [drainQueue, hq]
  obtain ⟨a1, a2⟩ := drainFuel_spec q.items s q.capacity hq2
  have d := drainLoop_eq q.items s q.capacity hq2
  rw [e]
  refine ⟨a1, a2, ?_, ?_, ?_⟩
  · rw [d]
  · intro hws
    rw [d]
    simp [hws]
  · intro hws
    rw [d]
    simp [hws]

/-- Witness of C16: two messages queued in the streaming state are sent in order. -/
theorem drain_sends_fifo_witness :
    (drainQueue (sendJSON [66] (sendJSON [65] streamingState))).wsQueue
        = some { capacity := WS_QUEUE_SIZE, items := [] } ∧
      ((sendJSON [66] (sendJSON [65] streamingState)).wsConnected = true →
        (drainQueue (sendJSON [66] (sendJSON [65] streamingState))).trace
          = (sendJSON [66] (sendJSON [65] streamingState)).trace
            ++ [mkWsMsg [65], mkWsMsg [66]].map (fun m => Call.sendTXT m.json)) :=
  ⟨(drain_sends_fifo (sendJSON [66] (sendJSON [65] streamingState))
      { capacity := WS_QUEUE_SIZE, items := [mkWsMsg [65], mkWsMsg [66]] } rfl
      (by decide)).2.2.1,
    (drain_sends_fifo (sendJSON [66] (sendJSON [65] streamingState))
      { capacity := WS_QUEUE_SIZE, items := [mkWsMsg [65], mkWsMsg [66]] } rfl
      (by decide)).2.2.2.1⟩

/-! ### Messages and producers -/

theorem cstring_ne_zero (j : List Nat) : ∀ c ∈ cstring j, c ≠ 0 := by
  induction j with
  | nil =>
    intro c hc
    simp [cstring] at hc
  | cons a as ih =>
    intro c hc
    by_cases ha : a = 0
    · simp [cstring, ha] at hc
    · simp only [cstring, ha, if_false, List.mem_cons] at hc
      rcases hc with h | h
      · rw [h]
        exact ha
      · exact ih c h

theorem cstring_length_le (j : List Nat) : (cstring j).length ≤ j.length := by
  induction j with
  | nil => simp [cstring]
  | cons a as ih =>
    by_cases ha : a = 0
    · simp [cstring, ha]
    · simp only [cstring, ha, if_false, List.length_cons]
      omega

theorem strncpy_length (j : List Nat) (n : Nat) : (strncpy j n).length = n := by
  simp only [strncpy, List.length_append, List.length_replicate, List.length_take]
  omega

theorem mkWsMsg_cstring (j : List Nat) : cstring (mkWsMsg j).json = (cstring j).take 319 := by
  simp only [mkWsMsg, strncpy, List.append_assoc]
  have hnz : ∀ c ∈ (cstring j).take 319, c ≠ 0 :=
    fun c hc => cstring_ne_zero j c (List.mem_of_mem_take hc)
  cases hr : List.replicate (319 - ((cstring j).take 319).length) 0 ++ [0] with
  | nil => simp at hr
  | cons a as =>
    have ha : a = 0 := by
      have hm : a ∈ List.replicate (319 - ((cstring j).take 319).length) 0 ++ [0] := by
        rw [hr]
        exact List.mem_cons_self a as
      rcases List.mem_append.mp hm with h1 | h1
      · exact (List.mem_replicate.mp h1).2
      · exact List.mem_singleton.mp h1
    rw [ha]
    exact cstring_append_nul _ as hnz

theorem mkWsMsg_wellformed (j : List Nat) :
    (mkWsMsg j).json.length = 320 ∧ (cstring (mkWsMsg j).json).length ≤ 319 := by
  refine ⟨?_, ?_⟩
  · simp only [mkWsMsg, List.length_append, strncpy_length, List.length_singleton]
  · rw [mkWsMsg_cstring, List.length_take]
    omega

/-- C18: a `sendJSON` that enqueues (transport connected, queue not full) appends exactly one
message built from its argument: a 320-byte array whose last byte is NUL and whose text is
the input text when that has at most 319 bytes and its first 319 bytes otherwise; in every
other case the queue is unchanged; so a queue whose messages are within the bound stays
within it. -/
theorem sendJSON_message_bounded :
    (∀ (j : List Nat) (s : State) (q : Queue), s.wsQueue = some q →
      (sendJSON j s).wsQueue
        = some (if s.wsConnected = true ∧ q.items.length < q.capacity
            then { capacity := q.capacity, items := q.items ++ [mkWsMsg j] } else q)) ∧
    (∀ (j : List Nat) (s : State) (q : Queue), s.wsConnected = true → s.wsQueue = some q →
      q.items.length < q.capacity →
      ∃ m : WsMsg,
        (sendJSON j s).wsQueue = some { capacity := q.capacity, items := q.items ++ [m] } ∧
        m.json.length = 320 ∧ m.json[319]? = some 0 ∧
        (cstring m.json).length ≤ 319 ∧
        cstring m.json = (cstring j).take 319 ∧
        ((∀ c ∈ j, c ≠ 0) → j.length ≤ 319 → cstring m.json = j) ∧
        ((∀ c ∈ j, c ≠ 0) → 319 < j.length → cstring m.json = j.take 319)) ∧
    (∀ j : List Nat,
      (mkWsMsg j).json.length = 320 ∧ (mkWsMsg j).json[319]? = some 0 ∧
      (cstring (mkWsMsg j).json).length ≤ 319 ∧
      cstring (mkWsMsg j).json = (cstring j).take 319) ∧
    (∀ (j : List Nat) (s : State) (q q1 : Queue), s.wsQueue = some q →
      (∀ m ∈ q.items, m.json.length = 320 ∧ (cstring m.json).length ≤ 319) →
      (sendJSON j s).wsQueue = some q1 →
      ∀ m ∈ q1.items, m.json.length = 320 ∧ (cstring m.json).length ≤ 319) := by
  have last : ∀ j : List Nat, (mkWsMsg j).json[319]? = some 0 := by
    intro j
    have hl : (strncpy j 319).length = 319 := strncpy_length j 319
    simp only [mkWsMsg]
    rw [List.getElem?_append_right (by omega), hl]
    rfl
  have exact : ∀ (j : List Nat) (s : State) (q : Queue), s.wsQueue = some q →
      (sendJSON j s).wsQueue
        = some (if s.wsConnected = true ∧ q.items.length < q.capacity
            then { capacity := q.capacity, items := q.items ++ [mkWsMsg j] } else q) := by
    intro j s q hq
    by_cases hws : s.wsConnected = true
    · rw [sendJSON_queue j s q hws hq]
      by_cases hlt : q.items.length < q.capacity
      · rw [xQueueSend, if_pos hlt, if_pos ⟨hws, hlt⟩]
      · rw [xQueueSend, if_neg hlt, if_neg (fun h => hlt h.2)]
    · have e : sendJSON j s = s := by
        simp only [sendJSON, hws, Bool.not_false, if_true]
      rw [e, hq, if_neg (fun h => hws h.1)]
  refine ⟨exact, ?_, ?_, ?_⟩
  · intro j s q hws hq hlt
    refine ⟨mkWsMsg j, ?_, (mkWsMsg_wellformed j).1, last j, (mkWsMsg_wellformed j).2,
      mkWsMsg_cstring j, ?_, ?_⟩
    · rw [exact j s q hq, if_pos ⟨hws, hlt⟩]
    · intro hj hl
      rw [mkWsMsg_cstring, cstring_self j hj]
      exact List.take_of_length_le hl
    · intro hj _
      rw [mkWsMsg_cstring, cstring_self j hj]
  · intro j
    exact ⟨(mkWsMsg_wellformed j).1, last j, (mkWsMsg_wellformed j).2, mkWsMsg_cstring j⟩
  · intro j s q q1 hq hall hq1
    rw [exact j s q hq] at hq1
    have e := Option.some.inj hq1
    rw [← e]
    split
    · intro m hm
      rcases List.mem_append.mp hm with h | h
      · exact hall m h
      · rw [List.mem_singleton.mp h]
        exact mkWsMsg_wellformed j
    · exact hall

/-- Witness of C18: a text of 400 letters sent in the streaming state is enqueued cut to
its first 319. -/
theorem sendJSON_message_bounded_witness :
    ∃ m : WsMsg,
      (sendJSON (List.replicate 400 65) streamingState).wsQueue
        = some { capacity := WS_QUEUE_SIZE, items := [m] } ∧
      m.json.length = 320 ∧ m.json[319]? = some 0 ∧
      (cstring m.json).length ≤ 319 ∧
      cstring m.json = (cstring (List.replicate 400 65)).take 319 ∧
      ((∀ c ∈ List.replicate 400 65, c ≠ 0) → (List.replicate 400 65).length ≤ 319 →
        cstring m.json = List.replicate 400 65) ∧
      ((∀ c ∈ List.replicate 400 65, c ≠ 0) → 319 < (List.replicate 400 65).length →
        cstring m.json = (List.replicate 400 65).take 319) :=
  sendJSON_message_bounded.2.1 (List.replicate 400 65) streamingState
    { capacity := WS_QUEUE_SIZE, items := [] } (by decide) (by decide) (by decide)

theorem bind_eq_ok {ε α β : Type} (m : Except ε α) (f : α → Except ε β) (b : β) :
    (m >>= f) = .ok b ↔ ∃ a, m = .ok a ∧ f a = .ok b := by
  cases m with
  | error e =>
    constructor
    · intro h
      cases h
    · rintro ⟨a, h, -⟩
      cases h
  | ok a =>
    constructor
    · intro h
      exact ⟨a, rfl, h⟩
    · rintro ⟨a1, h, h1⟩
      cases h
      exact h1

theorem pure_eq_ok {ε α : Type} (a b : α) :
    (pure a : Except ε α) = .ok b ↔ a = b := by
  constructor
  · intro h
    cases h
    rfl
  · intro h
    rw [h]
    rfl

theorem sendJSON_noop (j : List Nat) (s : State)
    (h : s.wsConnected = false ∨ s.wsQueue = none) : sendJSON j s = s := by
  unfold sendJSON
  rcases h with h | h
  · simp [h]
  · split
    · rfl
    · simp [h]

/-- C20: while `wsConnected` is false every notification handler returns at once with the
state unchanged, and `sendJSON` changes nothing; while the queue has not been created
`sendJSON` changes nothing either, so whatever state a handler returns is the state it was
called in, for every payload. -/
theorem producers_need_transport :
    (∀ (j : List Nat) (s : State), s.wsConnected = false ∨ s.wsQueue = none →
      sendJSON j s = s) ∧
    (∀ (fe : Int → Nat → List ℚ → List Nat) (fm : ℚ → ℚ → ℚ → List Nat)
      (ft : Nat → ℚ → List Nat) (c : Chr) (data : List Nat) (s : State),
      s.wsConnected = false →
      onEegNotify fe c data s = .ok s ∧ onAccelNotify fm data s = .ok s ∧
      onGyroNotify fm data s = .ok s ∧ onTelemetryNotify ft data s = .ok s) ∧
    (∀ (fe : Int → Nat → List ℚ → List Nat) (fm : ℚ → ℚ → ℚ → List Nat)
      (ft : Nat → ℚ → List Nat) (c : Chr) (data : List Nat) (s s1 : State),
      s.wsQueue = none →
      (onEegNotify fe c data s = .ok s1 → s1 = s) ∧
      (onAccelNotify fm data s = .ok s1 → s1 = s) ∧
      (onGyroNotify fm data s = .ok s1 → s1 = s) ∧
      (onTelemetryNotify ft data s = .ok s1 → s1 = s)) := by
  refine ⟨sendJSON_noop, ?_, ?_⟩
  · intro fe fm ft c data s h
    simp [onEegNotify, onAccelNotify, onGyroNotify, onTelemetryNotify, h]
  · intro fe fm ft c data s s1 hq
    have hs : ∀ j, sendJSON j s = s := fun j => sendJSON_noop j s (Or.inr hq)
    refine ⟨?_, ?_, ?_, ?_⟩
    · intro h
      unfold onEegNotify at h
      split at h
      · exact (Except.ok.inj h).symm
      · split at h
        · exact (Except.ok.inj h).symm
        · simp only [bind_eq_ok, pure_eq_ok, hs] at h
          obtain ⟨_, _, _, _, _, _, h⟩ := h
          exact h.symm
    · intro h
      unfold onAccelNotify at h
      split at h
      · exact (Except.ok.inj h).symm
      · simp only [bind_eq_ok, pure_eq_ok, hs] at h
        obtain ⟨_, _, _, _, _, _, _, _, _, _, _, _, _, _, _, _, h⟩ := h
        exact h.symm
    · intro h
      unfold onGyroNotify at h
      split at h
      · exact (Except.ok.inj h).symm
      · simp only [bind_eq_ok, pure_eq_ok, hs] at h
        obtain ⟨_, _, _, _, _, _, _, _, _, _, _, _, h⟩ := h
        exact h.symm
    · intro h
      unfold onTelemetryNotify at h
      split at h
      · exact (Except.ok.inj h).symm
      · simp only [bind_eq_ok, pure_eq_ok, hs] at h
        obtain ⟨_, _, _, _, _, _, _, _, h⟩ := h
        exact h.symm

/-- Witness of C20: after the transport has disconnected in the streaming state, a
well-formed accelerometer payload leaves the state unchanged. -/
theorem producers_need_transport_witness :
    onEegNotify (fun _ _ _ => [1]) (.eeg 0) (List.replicate 20 0)
        (wsEvent gattOk .DISCONNECTED streamingState)
        = .ok (wsEvent gattOk .DISCONNECTED streamingState) ∧
      onAccelNotify fmtFloors (List.replicate 20 0) (wsEvent gattOk .DISCONNECTED streamingState)
        = .ok (wsEvent gattOk .DISCONNECTED streamingState) ∧
      onGyroNotify fmtFloors (List.replicate 20 0) (wsEvent gattOk .DISCONNECTED streamingState)
        = .ok (wsEvent gattOk .DISCONNECTED streamingState) ∧
      onTelemetryNotify fmtCodes (List.replicate 20 0)
        (wsEvent gattOk .DISCONNECTED streamingState)
        = .ok (wsEvent gattOk .DISCONNECTED streamingState) :=
  producers_need_transport.2.1 (fun _ _ _ => [1]) fmtFloors fmtCodes (.eeg 0)
    (List.replicate 20 0) (wsEvent gattOk .DISCONNECTED streamingState) rfl

end BrainClaw
